import Mathlib

set_option maxHeartbeats 1000000
set_option linter.unusedVariables false

/-!
Verification development for the api-olt-telnet repository.

The repository drives a Telnet session to an OLT device.  Its core is the
`OltTelnetManager` class (the newer copy embedded in `src/index.js`,
lines 467-1044, with pagination support; the older copy in
`src/services/OltTelnetManager.js` is also modeled where the claims cite it)
together with the response formatter (`cleanResponse`,
`formatMacAddressTable`, ... in `src/unnamed/part_001`,
i.e. `utils/responseFormatter.js`).

JavaScript strings are modeled as `List Char`.  The regular-expression
replacements of the formatter are modeled by structurally recursive
functions that follow the exact left-to-right, greedy (with the one
backtracking case of `/\x08+\s*\x08+/`) semantics of JS `String.replace`
with a global regex.  Socket writes are pure outputs and do not affect
state; they are returned explicitly where a claim is about I/O
(`disconnect`) and noted in comments elsewhere.
-/

/-- The ECMAScript `\s` character class (WhiteSpace ∪ LineTerminator),
    which is also the set of characters removed by `String.prototype.trim`. -/
def jsWs (c : Char) : Bool :=
  (9 ≤ c.toNat && c.toNat ≤ 13) || c.toNat == 32 || c.toNat == 0xa0 ||
  c.toNat == 0x1680 || (0x2000 ≤ c.toNat && c.toNat ≤ 0x200a) ||
  c.toNat == 0x2028 || c.toNat == 0x2029 || c.toNat == 0x202f ||
  c.toNat == 0x205f || c.toNat == 0x3000 || c.toNat == 0xfeff

/-- JavaScript `String.prototype.trim`: drop `jsWs` characters from both ends. -/
def jsTrim (l : List Char) : List Char :=
  ((l.dropWhile jsWs).reverse.dropWhile jsWs).reverse

/-- JavaScript `haystack.indexOf(pat)`: index of the first occurrence of
    `pat` in `l` (`none` for JS's `-1`). -/
def idxSub? (pat : List Char) : List Char → Option Nat
  | [] => if pat.isPrefixOf ([] : List Char) then some 0 else none
  | c :: t => if pat.isPrefixOf (c :: t) then some 0 else (idxSub? pat t).map (· + 1)

/-- JavaScript `haystack.indexOf(pat, i)`: first occurrence at index `≥ i`. -/
def idxFrom? (pat r : List Char) (i : Nat) : Option Nat :=
  (idxSub? pat (r.drop i)).map (· + i)

/-- JavaScript `haystack.includes(pat)`. -/
def hasSub (l pat : List Char) : Bool :=
  (idxSub? pat l).isSome

/-- JavaScript `haystack.lastIndexOf(pat)`: the largest index at which `pat`
    occurs (as the last element of the ascending list of all occurrence
    positions). -/
def lastIdxSub? (pat l : List Char) : Option Nat :=
  ((List.range (l.length + 1)).filter (fun i => pat.isPrefixOf (l.drop i))).getLast?

/- ### Basic lemmas about the string primitives -/

theorem isPrefixOf_length_le {pat l : List Char} (h : pat.isPrefixOf l = true) :
    pat.length ≤ l.length := by
  induction pat generalizing l with
  | nil => simp
  | cons a as ih =>
    cases l with
    | nil => simp [List.isPrefixOf] at h
    | cons b bs =>
      simp only [List.isPrefixOf, Bool.and_eq_true] at h
      simpa using ih h.2

theorem isPrefixOf_append_self (pat t : List Char) :
    pat.isPrefixOf (pat ++ t) = true := by
  induction pat with
  | nil => simp [List.isPrefixOf]
  | cons a as ih => simp [List.isPrefixOf, ih]

theorem idxSub?_of_isPrefixOf {pat l : List Char} (h : pat.isPrefixOf l = true) :
    idxSub? pat l = some 0 := by
  cases l <;> simp [idxSub?, h]

theorem idxSub?_bound {pat l : List Char} {i : Nat} (h : idxSub? pat l = some i) :
    pat.isPrefixOf (l.drop i) = true ∧ i + pat.length ≤ l.length := by
  induction l generalizing i with
  | nil =>
    rw [idxSub?] at h
    by_cases hp : pat.isPrefixOf ([] : List Char) = true
    · rw [if_pos hp] at h
      cases h
      exact ⟨hp, by simpa using isPrefixOf_length_le hp⟩
    · rw [if_neg hp] at h
      cases h
  | cons c t ih =>
    rw [idxSub?] at h
    by_cases hp : pat.isPrefixOf (c :: t) = true
    · rw [if_pos hp] at h
      cases h
      exact ⟨hp, by simpa using isPrefixOf_length_le hp⟩
    · rw [if_neg hp] at h
      rcases Option.map_eq_some'.mp h with ⟨j, hj, rfl⟩
      obtain ⟨h1, h2⟩ := ih hj
      refine ⟨h1, ?_⟩
      simp only [List.length_cons]
      omega

/-- A single-character search in `xs ++ a :: ys` finds the shown `a` when
    `a` does not occur in `xs`. -/
theorem idxSub?_singleton_append {a : Char} {xs : List Char} (ys : List Char)
    (h : a ∉ xs) : idxSub? [a] (xs ++ a :: ys) = some xs.length := by
  induction xs with
  | nil => simp [idxSub?, List.isPrefixOf]
  | cons x t ih =>
    have hx : a ≠ x := by
      intro e; exact h (by simp [e])
    have ht : a ∉ t := fun m => h (by simp [m])
    have : ([a]).isPrefixOf (x :: (t ++ a :: ys)) = false := by
      simp [List.isPrefixOf, hx]
    simp [idxSub?, this, ih ht]

theorem hasSub_of_idx {l pat : List Char} {i : Nat} (h : idxSub? pat l = some i) :
    hasSub l pat = true := by
  simp [hasSub, h]

/- `jsTrim` interaction with a non-whitespace, resp. whitespace, final character. -/

theorem dropWhile_append_singleton (p : Char → Bool) (a : List Char) {c : Char}
    (hc : p c = false) :
    (a ++ [c]).dropWhile p = a.dropWhile p ++ [c] := by
  induction a with
  | nil => simp [List.dropWhile, hc]
  | cons x t ih =>
    by_cases hx : p x = true
    · simp [List.dropWhile, hx, ih]
    · simp only [Bool.not_eq_true] at hx
      simp [List.dropWhile, hx]

theorem jsTrim_append_notWs (a : List Char) {c : Char} (hc : jsWs c = false) :
    jsTrim (a ++ [c]) = a.dropWhile jsWs ++ [c] := by
  unfold jsTrim
  rw [dropWhile_append_singleton jsWs a hc]
  rw [List.reverse_append]
  simp only [List.reverse_cons, List.reverse_nil, List.nil_append, List.singleton_append]
  rw [List.dropWhile_cons_of_neg (by simp [hc])]
  simp

theorem dropWhile_eq_nil_of_forall {p : Char → Bool} {l : List Char}
    (h : ∀ x ∈ l, p x = true) : l.dropWhile p = [] := by
  induction l with
  | nil => rfl
  | cons x t ih => simp [List.dropWhile, h x (by simp), ih fun y hy => h y (by simp [hy])]

theorem jsTrim_append_ws (l : List Char) {c : Char} (hc : jsWs c = true) :
    jsTrim (l ++ [c]) = jsTrim l := by
  unfold jsTrim
  by_cases he : l.dropWhile jsWs = []
  · have h1 : (l ++ [c]).dropWhile jsWs = [] := by
      have : ∀ x ∈ l, jsWs x = true := by
        intro x hx
        by_contra hxf
        have hxf' : jsWs x = false := by
          cases hq : jsWs x
          · rfl
          · exact absurd hq hxf
        -- if some element of l were non-ws, dropWhile could not be empty
        have : l.dropWhile jsWs ≠ [] := by
          intro hnil
          have := List.dropWhile_eq_nil_iff.mp hnil x hx
          simp [hxf'] at this
        exact this he
      have hall : ∀ x ∈ l ++ [c], jsWs x = true := by
        intro x hx
        rcases List.mem_append.mp hx with h | h
        · exact this x h
        · simp at h; subst h; exact hc
      exact dropWhile_eq_nil_of_forall hall
    rw [h1, he]
  · have h1 : (l ++ [c]).dropWhile jsWs = l.dropWhile jsWs ++ [c] := by
      rw [List.dropWhile_append]
      simp [he]
    rw [h1, List.reverse_append]
    simp only [List.reverse_cons, List.reverse_nil, List.nil_append, List.singleton_append]
    rw [List.dropWhile_cons_of_pos (by simp [hc])]

/- ### Suffix lemmas -/

theorem isSuffixOf_singleton_concat (a b : Char) (Y : List Char) :
    ([a]).isSuffixOf (Y ++ [b]) = (a == b) := by
  simp [List.isSuffixOf, List.isPrefixOf]

theorem isSuffixOf_concat_concat_ne (Z Y : List Char) {d c : Char} (h : d ≠ c) :
    (Z ++ [d]).isSuffixOf (Y ++ [c]) = false := by
  unfold List.isSuffixOf
  rw [List.reverse_append, List.reverse_append]
  simp only [List.reverse_cons, List.reverse_nil, List.nil_append, List.singleton_append]
  simp [List.isPrefixOf, h]

theorem isSuffixOf_append_self (q X : List Char) :
    q.isSuffixOf (X ++ q) = true := by
  unfold List.isSuffixOf
  rw [List.reverse_append]
  exact isPrefixOf_append_self _ _

theorem getLast?_append_singleton (l : List Char) (a : Char) :
    (l ++ [a]).getLast? = some a := by
  induction l with
  | nil => rfl
  | cons x t ih => rw [List.cons_append, List.getLast?_cons, ih]; rfl

/- ### Last-occurrence lemmas -/

theorem lastIdxSub?_singleton_concat (L : List Char) (c : Char) :
    lastIdxSub? [c] (L ++ [c]) = some L.length := by
  unfold lastIdxSub?
  have hlen : (L ++ [c]).length = L.length + 1 := by simp
  rw [hlen]
  have h1 : List.range (L.length + 1 + 1) = List.range (L.length + 1) ++ [L.length + 1] := by
    simpa using List.range_succ (n := L.length + 1)
  have h2 : List.range (L.length + 1) = List.range L.length ++ [L.length] := by
    simpa using List.range_succ (n := L.length)
  rw [h1, h2, List.filter_append, List.filter_append]
  have hp2 : ([c]).isPrefixOf ((L ++ [c]).drop (L.length + 1)) = false := by
    have : (L ++ [c]).drop (L.length + 1) = [] := by
      apply List.drop_of_length_le
      simp
    rw [this]
    rfl
  have hp1 : ([c]).isPrefixOf ((L ++ [c]).drop L.length) = true := by
    rw [List.drop_left]
    simp [List.isPrefixOf]
  simp only [List.filter_cons, List.filter_nil, hp1, hp2]
  simp [getLast?_append_singleton]

/- ### Tokens of the session engine -/

def moreTok : List Char := "--More--".toList
def nlTok : List Char := "\n".toList
def userTok : List Char := "Username:".toList
def loginTok : List Char := "Login:".toList
def pwTok : List Char := "Password:".toList
def cfgTermTok : List Char := "configure terminal".toList
def enableTok : List Char := "enable".toList
def showTok : List Char := "show".toList
def listTok : List Char := "list".toList
def gtPrompt : List Char := ">".toList
def hashPrompt : List Char := "#".toList
def dollarPrompt : List Char := "$".toList
def cfgPrompt : List Char := "(config)#".toList
def cfgIfPrompt : List Char := "(config-if)#".toList

/-- The prompt list of `detectCommandPrompt` and `extractCommandResponse`
    (index.js lines 760 and 801), in source order. -/
def promptList : List (List Char) := [gtPrompt, hashPrompt, cfgPrompt, cfgIfPrompt]

/-- `detectCommandPrompt` (index.js 759-767): does the trimmed buffer end in
    one of the four prompts? -/
def detectCommandPrompt (b : List Char) : Bool :=
  promptList.any (fun q => q.isSuffixOf (jsTrim b))

/-- `detectLoginSuccess` (index.js 726-734). -/
def detectLoginSuccess (b : List Char) : Bool :=
  [gtPrompt, hashPrompt, dollarPrompt].any (fun q => q.isSuffixOf (jsTrim b))

/-- `detectLoginFailure` (index.js 740-753). -/
def detectLoginFailure (b : List Char) : Bool :=
  ["Login incorrect".toList, "Authentication failed".toList,
   "Login failed".toList, "Invalid username or password".toList].any
    (fun m => hasSub b m)

/- ### extractCommandResponse (index.js 774-810) -/

/-- Echo removal (index.js 779-785): locate `lastCommand`, then drop through
    the first newline at or after it. -/
def echoStrip (cmd r : List Char) : List Char :=
  match idxSub? cmd r with
  | none => r
  | some i =>
    match idxFrom? nlTok r i with
    | some j => r.drop (j + 1)
    | none => r

theorem idxFrom?_facts {pat r : List Char} {i j : Nat} (hp : pat ≠ [])
    (h : idxFrom? pat r i = some j) :
    i ≤ j ∧ j + pat.length ≤ r.length := by
  unfold idxFrom? at h
  rcases Option.map_eq_some'.mp h with ⟨j', hj', rfl⟩
  have hb := (idxSub?_bound hj').2
  rw [List.length_drop] at hb
  have hp1 : 1 ≤ pat.length := List.length_pos.mpr hp
  omega

/-- One iteration domain of the `--More--` removal loop (index.js 787-798):
    repeatedly delete from the first `--More--` through the following
    newline (or to the end when no newline follows).  The loop is written
    with a structural fuel argument so that it computes inside the kernel;
    every iteration shortens the text by at least one character, so fuel
    `length + 1` always suffices (`removeMoreF_fuel`). -/
def removeMoreF : Nat → List Char → List Char
  | 0, r => r
  | fuel + 1, r =>
    match idxSub? moreTok r with
    | none => r
    | some i =>
      match idxFrom? nlTok r i with
      | some j => removeMoreF fuel (r.take i ++ r.drop (j + 1))
      | none => removeMoreF fuel (r.take i)

/-- The `--More--` removal loop of `extractCommandResponse`. -/
def removeMore (r : List Char) : List Char :=
  removeMoreF (r.length + 1) r

/-- Any fuel beyond the length computes the same result: the fuel wrapper is
    faithful to the unbounded `while` loop of the source. -/
theorem removeMoreF_fuel (f1 : Nat) : ∀ (f2 : Nat) (r : List Char),
    r.length < f1 → r.length < f2 → removeMoreF f1 r = removeMoreF f2 r := by
  induction f1 with
  | zero => intro f2 r h1 h2; omega
  | succ f1 ih =>
    intro f2 r h1 h2
    cases f2 with
    | zero => omega
    | succ f2 =>
      cases hidx : idxSub? moreTok r with
      | none => simp only [removeMoreF, hidx]
      | some i =>
        have hb := (idxSub?_bound hidx).2
        have hm : moreTok.length = 8 := by decide
        cases hnl : idxFrom? nlTok r i with
        | none =>
          simp only [removeMoreF, hidx, hnl]
          apply ih
          · simp only [List.length_take]; omega
          · simp only [List.length_take]; omega
        | some j =>
          have hf := idxFrom?_facts (by decide : nlTok ≠ []) hnl
          simp only [removeMoreF, hidx, hnl]
          apply ih
          · simp only [List.length_append, List.length_take, List.length_drop]; omega
          · simp only [List.length_append, List.length_take, List.length_drop]; omega

/-- Final-prompt removal (index.js 800-807): the first prompt in source order
    `>`, `#`, `(config)#`, `(config-if)#` that is a suffix of the trimmed
    text is cut at its last occurrence (JS `substring(0, lastIndexOf(p))`). -/
def promptStrip (r : List Char) : List Char :=
  match promptList.find? (fun q => q.isSuffixOf (jsTrim r)) with
  | some q =>
    match lastIdxSub? q r with
    | some i => r.take i
    | none => []
  | none => r

/-- `extractCommandResponse(inputBuffer)` (index.js 774-810). -/
def extractCommandResponse (cmd r : List Char) : List Char :=
  jsTrim (promptStrip (removeMore (echoStrip cmd r)))

/- ### Session data model (index.js 475-492 constructor state, plus the
      settlement state of the promises created by `connect` and
      `sendCommand`, which the claims observe) -/

/-- Settlement state of the promise returned by `connect`. -/
inductive ConnPromise
  | pending
  | resolved
  | rejected
deriving DecidableEq, Repr

/-- Settlement state of the promise returned by `sendCommand`.
    `resolvedWith raw` records the raw text handed to the resolver; the JS
    promise then resolves with `responseFormatter.formatResponse(lastCommand,
    raw)` (falling back to `raw` when the formatter throws), identically in
    the data-event path (index.js 865-878) and the timer path (index.js
    897-908). -/
inductive CmdPromise
  | pending
  | resolvedWith (raw : List Char)
  | rejectedTimeout
  | rejectedNoSession
deriving DecidableEq, Repr

/-- The mutable state of one `OltTelnetManager` (index.js 475-492), together
    with observation fields for the two promises and the two timers.
    `hasResolver` mirrors `responseResolver !== null`; `connTimerActive` and
    `cmdTimerActive` mirror whether the connect / command `setTimeout` is
    still armed (i.e. not cleared).  Socket writes are pure outputs and are
    noted in comments. -/
structure Session where
  buffer : List Char
  connected : Bool
  loggedIn : Bool
  inConfigMode : Bool
  currentPrompt : List Char
  waitingForResponse : Bool
  hasResolver : Bool
  enablePassword : List Char
  lastCommand : List Char
  accumulatedResponse : List Char
  pageCount : Nat
  connTimerActive : Bool
  connectPromise : ConnPromise
  cmdTimerActive : Bool
  cmdPromise : CmdPromise
deriving DecidableEq, Repr

/-- Constructor state (index.js 475-492); the promise fields start pending
    and become meaningful when `connect` / `sendCommand` create them. -/
def initialSession : Session where
  buffer := []
  connected := false
  loggedIn := false
  inConfigMode := false
  currentPrompt := []
  waitingForResponse := false
  hasResolver := false
  enablePassword := []
  lastCommand := []
  accumulatedResponse := []
  pageCount := 0
  connTimerActive := false
  connectPromise := ConnPromise.pending
  cmdTimerActive := false
  cmdPromise := CmdPromise.pending

/-- Promise settle-once semantics for the connect promise: `resolve`/`reject`
    on an already settled promise is a no-op. -/
def settleConnect (s : Session) (ok : Bool) : Session :=
  match s.connectPromise with
  | ConnPromise.pending =>
    { s with connectPromise := if ok then ConnPromise.resolved else ConnPromise.rejected }
  | _ => s

/-- Promise settle-once semantics for the command promise. -/
def settleCmd (s : Session) (o : CmdPromise) : Session :=
  match s.cmdPromise with
  | CmdPromise.pending => { s with cmdPromise := o }
  | _ => s

/-- `if (this.responseResolver) { this.responseResolver(response);
    this.responseResolver = null; }` (index.js 651-655 / 629-633 / 675-679). -/
def resolveIfResolver (s : Session) (v : List Char) : Session :=
  if s.hasResolver then
    { settleCmd s (CmdPromise.resolvedWith v) with hasResolver := false }
  else s

/-- `updateCurrentPrompt` of the `src/index.js` manager (lines 815-837):
    `(config)#` is tested first, then `(config-if)#`, then `#`, then `>`. -/
def updateCurrentPrompt (s : Session) : Session :=
  let b := jsTrim s.buffer
  if cfgPrompt.isSuffixOf b then
    { s with currentPrompt := cfgPrompt, inConfigMode := true }
  else if cfgIfPrompt.isSuffixOf b then
    { s with currentPrompt := cfgIfPrompt, inConfigMode := true }
  else if hashPrompt.isSuffixOf b then
    { s with currentPrompt := hashPrompt }
  else if gtPrompt.isSuffixOf b then
    { s with currentPrompt := gtPrompt }
  else s

/-- `updateCurrentPrompt` of `src/services/OltTelnetManager.js`
    (lines 209-222): there `#` is tested FIRST, then `>`, then `(config)#`,
    then `(config-if)#`.  Returns the new `(currentPrompt, inConfigMode)`. -/
def updateCurrentPromptSvc (buffer currentPrompt : List Char) (inConfigMode : Bool) :
    List Char × Bool :=
  let b := jsTrim buffer
  if hashPrompt.isSuffixOf b then (hashPrompt, inConfigMode)
  else if gtPrompt.isSuffixOf b then (gtPrompt, inConfigMode)
  else if cfgPrompt.isSuffixOf b then (cfgPrompt, true)
  else if cfgIfPrompt.isSuffixOf b then (cfgIfPrompt, true)
  else (currentPrompt, inConfigMode)

/- ### handleData (index.js 568-720) -/

/-- The login branch of `handleData` (index.js 575-601).  Writes of the
    username / password to the socket are pure output. -/
def loginStep (s : Session) : Session :=
  if hasSub s.buffer userTok || hasSub s.buffer loginTok then
    { s with buffer := [] }
  else if hasSub s.buffer pwTok then
    { s with buffer := [] }
  else if detectLoginSuccess s.buffer then
    { settleConnect (updateCurrentPrompt { s with loggedIn := true }) true with buffer := [] }
  else if detectLoginFailure s.buffer then
    { settleConnect s false with buffer := [] }
  else s

/-- Command-prompt-arrived branch of `handleData` (index.js 605-659): clear
    the command timer, flush the pagination accumulator if non-empty, extract
    the response, re-derive the prompt, resolve the pending command promise,
    and reset the waiting state. -/
def promptArrived (s : Session) : Session :=
  let s := { s with cmdTimerActive := false }
  if s.accumulatedResponse.isEmpty = false then
    let acc := s.accumulatedResponse ++ s.buffer
    let resp := extractCommandResponse s.lastCommand acc
    let s := resolveIfResolver (updateCurrentPrompt { s with accumulatedResponse := acc }) resp
    { s with accumulatedResponse := [], pageCount := 0, waitingForResponse := false, buffer := [] }
  else
    let resp := extractCommandResponse s.lastCommand s.buffer
    let s := resolveIfResolver (updateCurrentPrompt s) resp
    { s with waitingForResponse := false, buffer := [] }

/-- `--More--` branch of `handleData` (index.js 660-704): bump the page
    counter; if it exceeds `maxPages = 100`, resolve with the raw accumulated
    text; otherwise accumulate the page before the marker, write a space to
    the socket (pure output) and clear the buffer. -/
def moreArrived (s : Session) : Session :=
  let s := { s with pageCount := s.pageCount + 1 }
  if 100 < s.pageCount then
    let s := { s with accumulatedResponse := s.accumulatedResponse ++ s.buffer }
    let s := resolveIfResolver s s.accumulatedResponse
    { s with accumulatedResponse := [], pageCount := 0, waitingForResponse := false, buffer := [] }
  else
    let s :=
      match idxSub? moreTok s.buffer with
      | some i => { s with accumulatedResponse := s.accumulatedResponse ++ s.buffer.take i }
      | none => { s with accumulatedResponse := s.accumulatedResponse ++ s.buffer }
    { s with buffer := [] }

/-- The awaiting-response branch of `handleData` (index.js 602-716). -/
def awaitStep (s : Session) : Session :=
  if detectCommandPrompt s.buffer then promptArrived s
  else if hasSub s.buffer moreTok then moreArrived s
  else if hasSub s.buffer pwTok then
    if hasSub s.lastCommand cfgTermTok || hasSub s.lastCommand enableTok then
      { s with buffer := [] }
    else s
  else s

/-- `handleData` (index.js 568-720): append the data to the buffer, then
    dispatch on the login / awaiting-response state. -/
def handleData (data : List Char) (s : Session) : Session :=
  let s := { s with buffer := s.buffer ++ data }
  if s.loggedIn = false then loginStep s
  else if s.waitingForResponse = true then awaitStep s
  else s

/- ### Socket events and the other operations -/

/-- The `connect` call itself (index.js 503-518): store the enable password,
    arm the connection timer, create the (pending) connect promise. -/
def connectStart (ep : List Char) : Session :=
  { initialSession with
      enablePassword := ep, connTimerActive := true,
      connectPromise := ConnPromise.pending }

/-- The TCP-connection-established callback (index.js 525-529):
    `connected = true`, connect timer cleared. -/
def socketConnected (s : Session) : Session :=
  { s with connected := true, connTimerActive := false }

/-- The `close` handler (index.js 551-556): reset the three session flags.
    Nothing else is touched. -/
def closeEvent (s : Session) : Session :=
  { s with connected := false, loggedIn := false, inConfigMode := false }

/-- The `error` handler (index.js 543-548): clear the connect timer, set
    `connected = false`, reject the connect promise. -/
def errorEvent (s : Session) : Session :=
  settleConnect { s with connected := false, connTimerActive := false } false

/-- Expiry of the connect timer (index.js 512-518); it runs only while armed
    (not cleared), destroys the socket and rejects the connect promise. -/
def connTimerFire (s : Session) : Session :=
  if s.connTimerActive then
    settleConnect { s with connTimerActive := false } false
  else s

/-- The command timeout chosen by `sendCommand` (index.js 889):
    `command === 'list' || command.includes('show') ? 120000 :
    this.commandTimeout` with `commandTimeout = 30000` (index.js 488). -/
def timeoutFor (cmd : List Char) : Nat :=
  if cmd == listTok || hasSub cmd showTok then 120000 else 30000

/-- The synchronous part of `sendCommand` (index.js 844-923): guard, reset
    pagination state, record the command, arm the waiting state and the
    command timer, create the (pending) command promise, clear the buffer and
    write `command + "\n"` to the socket (pure output). -/
def sendCommandStart (cmd : List Char) (s : Session) : Session :=
  if s.connected = false || s.loggedIn = false then
    { s with cmdPromise := CmdPromise.rejectedNoSession }
  else
    { s with
        accumulatedResponse := [], pageCount := 0, lastCommand := cmd,
        waitingForResponse := true, hasResolver := true, buffer := [],
        cmdTimerActive := true, cmdPromise := CmdPromise.pending }

/-- Expiry of the command timer (index.js 892-919): if still waiting, either
    resolve with the extracted partial pagination content (best effort) or
    reject with the command-timeout error, then clear the waiting and
    pagination state. -/
def commandTimerFire (s : Session) : Session :=
  if s.cmdTimerActive = false then s
  else
    let s := { s with cmdTimerActive := false }
    if s.waitingForResponse then
      if s.accumulatedResponse.isEmpty = false then
        let part := extractCommandResponse s.lastCommand s.accumulatedResponse
        { settleCmd s (CmdPromise.resolvedWith part) with
            waitingForResponse := false, hasResolver := false,
            accumulatedResponse := [], pageCount := 0 }
      else
        { settleCmd s CmdPromise.rejectedTimeout with
            waitingForResponse := false, hasResolver := false,
            accumulatedResponse := [], pageCount := 0 }
    else s

/-- `enterEnableMode` (index.js 930-948), atomic summary: guard against a
    missing session (throws, state unchanged), no-op when already privileged,
    otherwise delegate to `sendCommand("enable")` (whose later completion is
    a `handleData` step). -/
def enterEnableMode (s : Session) : Session :=
  if s.connected = false || s.loggedIn = false then s
  else if s.currentPrompt == hashPrompt || s.inConfigMode then s
  else sendCommandStart enableTok s

/-- The synchronous entry of `enterConfigMode` (index.js 954-973), up to its
    first `await`: guard against a missing session (throws, state unchanged),
    no-op when already in config mode, otherwise issue `configure terminal`
    when already privileged, else first issue `enable` (the synchronous part
    of the awaited `enterEnableMode`). -/
def enterConfigModeStart (s : Session) : Session :=
  if s.connected = false || s.loggedIn = false then s
  else if s.inConfigMode then s
  else if s.currentPrompt == hashPrompt then sendCommandStart cfgTermTok s
  else sendCommandStart enableTok s

/-- The continuation of `enterConfigMode` after `await
    this.sendCommand('configure terminal')` resolves (index.js 975-976):
    `this.inConfigMode = true` runs unconditionally — the guard of line 956
    is NOT re-checked, whatever happened to the session during the await. -/
def enterConfigModeResume (s : Session) : Session :=
  { s with inConfigMode := true }

/-- `disconnect` (index.js 986-1020).  Returns the new state and the list of
    strings written to the socket; an already-disconnected session resolves
    immediately with no I/O and no state change.  The function always
    resolves (the promise executor has no `reject` at all). -/
def disconnectOp (s : Session) : Session × List (List Char) :=
  if s.connected = false then (s, [])
  else
    ({ s with
         connected := false, loggedIn := false, inConfigMode := false,
         buffer := [], currentPrompt := [] },
     (if s.inConfigMode then ["exit\n".toList] else []) ++ ["exit\n".toList])

/- ### Projection lemmas for the engine steps -/

theorem settleConnect_loggedIn (s : Session) (ok : Bool) :
    (settleConnect s ok).loggedIn = s.loggedIn := by
  unfold settleConnect; split <;> rfl

theorem settleConnect_inConfigMode (s : Session) (ok : Bool) :
    (settleConnect s ok).inConfigMode = s.inConfigMode := by
  unfold settleConnect; split <;> rfl

theorem settleCmd_loggedIn (s : Session) (o : CmdPromise) :
    (settleCmd s o).loggedIn = s.loggedIn := by
  unfold settleCmd; split <;> rfl

theorem settleCmd_inConfigMode (s : Session) (o : CmdPromise) :
    (settleCmd s o).inConfigMode = s.inConfigMode := by
  unfold settleCmd; split <;> rfl

theorem resolveIfResolver_loggedIn (s : Session) (v : List Char) :
    (resolveIfResolver s v).loggedIn = s.loggedIn := by
  unfold resolveIfResolver
  split_ifs with h1
  · simp [settleCmd_loggedIn]
  · rfl

theorem updateCurrentPrompt_loggedIn (s : Session) :
    (updateCurrentPrompt s).loggedIn = s.loggedIn := by
  simp only [updateCurrentPrompt]; split_ifs <;> rfl

theorem promptArrived_loggedIn (s : Session) :
    (promptArrived s).loggedIn = s.loggedIn := by
  simp only [promptArrived]
  split_ifs with h1
  · simp [resolveIfResolver_loggedIn, updateCurrentPrompt_loggedIn]
  · simp [resolveIfResolver_loggedIn, updateCurrentPrompt_loggedIn]

theorem moreArrived_loggedIn (s : Session) :
    (moreArrived s).loggedIn = s.loggedIn := by
  simp only [moreArrived]
  split_ifs with h1
  · simp [resolveIfResolver_loggedIn]
  · split <;> rfl

theorem awaitStep_loggedIn (s : Session) :
    (awaitStep s).loggedIn = s.loggedIn := by
  simp only [awaitStep]
  split_ifs <;> simp [promptArrived_loggedIn, moreArrived_loggedIn]

theorem sendCommandStart_flags (cmd : List Char) (s : Session) :
    (sendCommandStart cmd s).loggedIn = s.loggedIn ∧
    (sendCommandStart cmd s).inConfigMode = s.inConfigMode := by
  simp only [sendCommandStart]; split_ifs <;> exact ⟨rfl, rfl⟩

theorem commandTimerFire_flags (s : Session) :
    (commandTimerFire s).loggedIn = s.loggedIn ∧
    (commandTimerFire s).inConfigMode = s.inConfigMode := by
  simp only [commandTimerFire]
  split_ifs <;> simp [settleCmd_loggedIn, settleCmd_inConfigMode]

/-- The session invariant of claim C7. -/
def sessionInv (s : Session) : Prop := s.inConfigMode = true → s.loggedIn = true

theorem loginStep_inv (s : Session) (h : sessionInv s) : sessionInv (loginStep s) := by
  unfold sessionInv at h ⊢
  simp only [loginStep]
  split_ifs with h1 h2 h3 h4
  · exact fun hc => h hc
  · exact fun hc => h hc
  · intro hc
    simp [settleConnect_loggedIn, updateCurrentPrompt_loggedIn]
  · intro hc
    have : (settleConnect s false).inConfigMode = s.inConfigMode := settleConnect_inConfigMode s false
    simp only [settleConnect_loggedIn]
    apply h
    simpa [this] using hc
  · exact h

theorem handleData_inv (d : List Char) (s : Session) (h : sessionInv s) :
    sessionInv (handleData d s) := by
  simp only [handleData]
  split_ifs with h1 h2
  · exact loginStep_inv _ (fun hc => h hc)
  · unfold sessionInv
    rw [awaitStep_loggedIn]
    intro _
    simp only [Bool.not_eq_false] at h1
    exact h1
  · exact fun hc => h hc

/- ### Longest-prompt-suffix analysis for updateCurrentPrompt -/

theorem isPrefixOf_of_isPrefixOf_le {p1 p2 l : List Char} (h1 : p1.isPrefixOf l = true)
    (h2 : p2.isPrefixOf l = true) (hle : p1.length ≤ p2.length) :
    p1.isPrefixOf p2 = true := by
  induction p1 generalizing p2 l with
  | nil => simp [List.isPrefixOf]
  | cons a as ih =>
    cases p2 with
    | nil => simp at hle
    | cons b bs =>
      cases l with
      | nil => simp [List.isPrefixOf] at h1
      | cons c cs =>
        simp only [List.isPrefixOf, Bool.and_eq_true, beq_iff_eq] at h1 h2 ⊢
        refine ⟨h1.1.trans h2.1.symm, ?_⟩
        exact ih h1.2 h2.2 (by simpa using hle)

theorem isSuffixOf_of_isSuffixOf_le {q1 q2 l : List Char} (h1 : q1.isSuffixOf l = true)
    (h2 : q2.isSuffixOf l = true) (hle : q1.length ≤ q2.length) :
    q1.isSuffixOf q2 = true := by
  unfold List.isSuffixOf at h1 h2 ⊢
  exact isPrefixOf_of_isPrefixOf_le h1 h2 (by simpa using hle)

/-- A trimmed buffer cannot end in both `(config)#` and `(config-if)#`. -/
theorem not_cfg_and_cfgIf {b : List Char} (h1 : cfgPrompt.isSuffixOf b = true)
    (h2 : cfgIfPrompt.isSuffixOf b = true) : False := by
  have := isSuffixOf_of_isSuffixOf_le h1 h2 (by decide)
  exact absurd this (by decide)

/-- The longest element of the prompt set that is a suffix of `b`, written
    down following the spec's own precedence order `(config-if)#` →
    `(config)#` → `#` → `>` ("longest/most-specific first"). -/
def specLongestPrompt (b : List Char) : List Char :=
  if cfgIfPrompt.isSuffixOf b then cfgIfPrompt
  else if cfgPrompt.isSuffixOf b then cfgPrompt
  else if hashPrompt.isSuffixOf b then hashPrompt
  else if gtPrompt.isSuffixOf b then gtPrompt
  else []

/-- The `src/index.js` `updateCurrentPrompt` (which tests `(config)#` before
    `(config-if)#`) nevertheless computes the longest matching suffix,
    because neither config prompt is a suffix of the other. -/
theorem updateCurrentPrompt_longest (s : Session)
    (h : detectCommandPrompt s.buffer = true) :
    (updateCurrentPrompt s).currentPrompt = specLongestPrompt (jsTrim s.buffer) := by
  simp only [updateCurrentPrompt, specLongestPrompt]
  by_cases hcfg : cfgPrompt.isSuffixOf (jsTrim s.buffer) = true
  · have hnif : cfgIfPrompt.isSuffixOf (jsTrim s.buffer) = false := by
      cases hq : cfgIfPrompt.isSuffixOf (jsTrim s.buffer)
      · rfl
      · exact absurd (not_cfg_and_cfgIf hcfg hq) (by simp)
    simp [hcfg, hnif]
  · by_cases hif : cfgIfPrompt.isSuffixOf (jsTrim s.buffer) = true
    · simp [hcfg, hif]
    · by_cases hh : hashPrompt.isSuffixOf (jsTrim s.buffer) = true
      · simp [hcfg, hif, hh]
      · by_cases hg : gtPrompt.isSuffixOf (jsTrim s.buffer) = true
        · simp [hcfg, hif, hh, hg]
        · exfalso
          simp only [detectCommandPrompt, promptList, List.any_cons, List.any_nil,
            Bool.or_eq_true] at h
          rcases h with h | h | h | h
          · exact absurd h (by simp [hg])
          · exact absurd h (by simp [hh])
          · exact absurd h (by simp [hcfg])
          · exact absurd h (by simp [hif])

/-- Claim C1 (code bug): the program's actually loaded prompt derivation,
    `updateCurrentPrompt` of `src/services/OltTelnetManager.js` (lines
    209-222, the module `routes/oltTelnet.js` imports), tests `#` before the
    config prompts, so a buffer ending in `(config)#` IS classified as
    ending in `#` alone (and `inConfigMode` is not set), contradicting the
    claimed longest-suffix precedence.  The `src/index.js` copy (lines
    815-837) does yield `(config)#` on the same buffer. -/
theorem c1_svc_config_buffer_misclassified :
    updateCurrentPromptSvc ("VSOL(config)#".toList) [] false = (hashPrompt, false) ∧
    cfgPrompt.isSuffixOf (jsTrim "VSOL(config)#".toList) = true ∧
    specLongestPrompt (jsTrim "VSOL(config)#".toList) = cfgPrompt ∧
    (updateCurrentPrompt
      { initialSession with buffer := "VSOL(config)#".toList }).currentPrompt = cfgPrompt := by
  refine ⟨by decide, by decide, by decide, ?_⟩
  decide

/- ### Claim C4: socket closure -/

/-- Claim C4 counterexample: after a connect whose TCP connection succeeded
    (which clears the connect timer) but whose login has not finished, the
    `close` handler leaves the connect promise pending and no timer is armed
    to ever fail it — the in-flight operation is NOT failed. -/
theorem c4_close_leaves_connect_pending :
    (socketConnected (connectStart [])).connectPromise = ConnPromise.pending ∧
    (closeEvent (socketConnected (connectStart []))).connectPromise = ConnPromise.pending ∧
    (closeEvent (socketConnected (connectStart []))).connTimerActive = false ∧
    (closeEvent (socketConnected (connectStart []))).connected = false ∧
    (closeEvent (socketConnected (connectStart []))).loggedIn = false := by
  decide

theorem settleCmd_cmdPromise (s : Session) (o : CmdPromise) :
    (settleCmd s o).cmdPromise =
      if s.cmdPromise = CmdPromise.pending then o else s.cmdPromise := by
  cases h : s.cmdPromise <;> simp [settleCmd, h]

/-- A still-armed command timer settles the command promise on expiry
    whenever a response is still awaited. -/
theorem commandTimerFire_settles (s : Session) (ht : s.cmdTimerActive = true)
    (hw : s.waitingForResponse = true) :
    (commandTimerFire s).cmdPromise ≠ CmdPromise.pending := by
  have hne : ¬ (s.cmdTimerActive = false) := by simp [ht]
  unfold commandTimerFire
  rw [if_neg hne]
  dsimp only
  rw [if_pos (show ({ s with cmdTimerActive := false } : Session).waitingForResponse = true from hw)]
  split_ifs with hacc
  · dsimp only
    rw [settleCmd_cmdPromise]
    dsimp only
    by_cases hp : s.cmdPromise = CmdPromise.pending
    · simp [hp]
    · simp [hp]
  · dsimp only
    rw [settleCmd_cmdPromise]
    dsimp only
    by_cases hp : s.cmdPromise = CmdPromise.pending
    · simp [hp]
    · simp [hp]

/-- Claim C4 (amended): the `close` handler always resets `connected`,
    `loggedIn`, `inConfigMode`, and settles no promise itself; a pending
    `sendCommand` is still settled later because its command timer stays
    armed across the closure, while a connect operation pending after TCP
    establishment is left pending. -/
theorem c4_close_resets_flags (s : Session) :
    (closeEvent s).connected = false ∧ (closeEvent s).loggedIn = false ∧
    (closeEvent s).inConfigMode = false ∧
    (closeEvent s).connectPromise = s.connectPromise ∧
    (closeEvent s).cmdPromise = s.cmdPromise ∧
    (closeEvent s).cmdTimerActive = s.cmdTimerActive ∧
    (s.cmdTimerActive = true → s.waitingForResponse = true →
      (commandTimerFire (closeEvent s)).cmdPromise ≠ CmdPromise.pending) := by
  refine ⟨rfl, rfl, rfl, rfl, rfl, rfl, ?_⟩
  intro ht hw
  exact commandTimerFire_settles (closeEvent s) ht hw

/-- A concrete session with a pending command and an armed command timer. -/
def c4WitState : Session :=
  { initialSession with waitingForResponse := true, cmdTimerActive := true }

/-- Claim C4 witness: after closure the command timer still settles the
    pending command. -/
theorem c4_close_resets_flags_witness :
    c4WitState.cmdTimerActive = true ∧ c4WitState.waitingForResponse = true ∧
    (commandTimerFire (closeEvent c4WitState)).cmdPromise ≠ CmdPromise.pending := by
  refine ⟨rfl, rfl, ?_⟩
  exact (c4_close_resets_flags c4WitState).2.2.2.2.2.2 rfl rfl

/- ### Claim C5: command-timer expiry -/

/-- Claim C5: on command-timer expiry while a response is still pending, a
    non-empty pagination accumulator is extracted and resolved as a
    best-effort success (the promise value is that content run through the
    response formatter, falling back to the raw text on a formatter error);
    an empty accumulator rejects with the command-timeout error. -/
theorem c5_timer_partial_or_timeout (s : Session)
    (ht : s.cmdTimerActive = true) (hw : s.waitingForResponse = true)
    (hp : s.cmdPromise = CmdPromise.pending) :
    (s.accumulatedResponse ≠ [] →
      (commandTimerFire s).cmdPromise =
        CmdPromise.resolvedWith
          (extractCommandResponse s.lastCommand s.accumulatedResponse)) ∧
    (s.accumulatedResponse = [] →
      (commandTimerFire s).cmdPromise = CmdPromise.rejectedTimeout) := by
  have hne : ¬ (s.cmdTimerActive = false) := by simp [ht]
  constructor
  · intro hacc
    unfold commandTimerFire
    rw [if_neg hne]
    dsimp only
    rw [if_pos (show ({ s with cmdTimerActive := false } : Session).waitingForResponse = true from hw)]
    rw [if_pos (show ({ s with cmdTimerActive := false } : Session).accumulatedResponse.isEmpty = false by
      simpa using List.isEmpty_eq_false.mpr hacc)]
    dsimp only
    rw [settleCmd_cmdPromise]
    simp [hp]
  · intro hacc
    unfold commandTimerFire
    rw [if_neg hne]
    dsimp only
    rw [if_pos (show ({ s with cmdTimerActive := false } : Session).waitingForResponse = true from hw)]
    rw [if_neg (show ¬ ({ s with cmdTimerActive := false } : Session).accumulatedResponse.isEmpty = false by
      simp [hacc])]
    dsimp only
    rw [settleCmd_cmdPromise]
    simp [hp]

/-- A concrete awaiting session holding partial paginated content. -/
def c5WitState : Session :=
  { initialSession with
      waitingForResponse := true
      cmdTimerActive := true
      accumulatedResponse := "p1 ".toList
      lastCommand := "nocmd".toList
      cmdPromise := CmdPromise.pending }

/-- Claim C5 witness: timer expiry on `c5WitState` resolves with the
    extracted partial content. -/
theorem c5_timer_partial_or_timeout_witness :
    c5WitState.accumulatedResponse ≠ [] ∧
    (commandTimerFire c5WitState).cmdPromise =
      CmdPromise.resolvedWith
        (extractCommandResponse "nocmd".toList "p1 ".toList) := by
  refine ⟨by decide, ?_⟩
  exact (c5_timer_partial_or_timeout c5WitState rfl rfl rfl).1 (by decide)

/- ### Claim C6: command timeout selection -/

/-- Claim C6 counterexample: `reshow` neither begins with `show` nor equals
    `list`, so the claim predicts the default 30 s; the code tests
    `command.includes('show')` and gives it 120 s. -/
theorem c6_timeout_substring_not_beginning :
    timeoutFor "reshow".toList = 120000 ∧
    showTok.isPrefixOf "reshow".toList = false ∧
    "reshow".toList ≠ listTok := by
  decide

/-- Claim C6 (amended): the deadline is 120 s exactly for commands that
    equal `list` or CONTAIN `show` as a substring (in particular every
    command beginning with `show`), and 30 s for all others. -/
theorem c6_timeout_rule (cmd : List Char) :
    (showTok.isPrefixOf cmd = true → timeoutFor cmd = 120000) ∧
    (cmd = listTok → timeoutFor cmd = 120000) ∧
    (hasSub cmd showTok = false → cmd ≠ listTok → timeoutFor cmd = 30000) := by
  refine ⟨?_, ?_, ?_⟩
  · intro h
    have : hasSub cmd showTok = true := hasSub_of_idx (idxSub?_of_isPrefixOf h)
    simp [timeoutFor, this]
  · intro h
    subst h
    simp [timeoutFor]
  · intro h1 h2
    simp [timeoutFor, h1, h2]

/-- Claim C6 witness: `show mac address-table` gets the 120 s deadline. -/
theorem c6_timeout_rule_witness :
    showTok.isPrefixOf "show mac address-table".toList = true ∧
    timeoutFor "show mac address-table".toList = 120000 := by
  refine ⟨by decide, ?_⟩
  exact (c6_timeout_rule "show mac address-table".toList).1 (by decide)

/- ### Claim C9: disconnect idempotence -/

/-- A session that hit a socket error after a successful login: the error
    handler (index.js 543-548) clears only `connected`, leaving
    `loggedIn = true`. -/
def c9ErrState : Session :=
  errorEvent { initialSession with connected := true, loggedIn := true }

/-- Claim C9 counterexample: from the reachable post-error state
    (`connected = false`, `loggedIn = true`), `disconnect` returns
    immediately, so calling it twice leaves `loggedIn = true` — not the
    claimed final state `loggedIn = false`. -/
theorem c9_disconnect_error_state :
    c9ErrState.connected = false ∧ c9ErrState.loggedIn = true ∧
    ((disconnectOp (disconnectOp c9ErrState).1).1).loggedIn = true := by
  decide

/-- Claim C9 (amended): `disconnect` never fails and is idempotent — the
    second call returns the same state with no I/O; a call on a session with
    `connected = true` resets all three flags; a call on a session with
    `connected = false` returns immediately with no I/O and no state change
    (so flags such as a stale `loggedIn` left by the error handler are NOT
    cleared). -/
theorem c9_disconnect_idempotent (s : Session) :
    disconnectOp (disconnectOp s).1 = ((disconnectOp s).1, []) ∧
    ((disconnectOp s).1).connected = false ∧
    (s.connected = true →
      ((disconnectOp s).1).loggedIn = false ∧
      ((disconnectOp s).1).inConfigMode = false) ∧
    (s.connected = false → disconnectOp s = (s, [])) := by
  by_cases hc : s.connected = false
  · simp [disconnectOp, hc]
  · have hc' : s.connected = true := by
      cases h : s.connected
      · exact absurd h hc
      · rfl
    simp [disconnectOp, hc, hc']

/-- Claim C9 witness: double disconnect from a fully connected session. -/
def c9WitState : Session :=
  { initialSession with connected := true, loggedIn := true, inConfigMode := true }

/-- Claim C9 witness: from a connected, logged-in, config-mode session the
    first `disconnect` yields the fully disconnected state and the second is
    a no-op with no I/O. -/
theorem c9_disconnect_idempotent_witness :
    c9WitState.connected = true ∧
    ((disconnectOp c9WitState).1).loggedIn = false ∧
    ((disconnectOp c9WitState).1).inConfigMode = false ∧
    disconnectOp (disconnectOp c9WitState).1 = ((disconnectOp c9WitState).1, []) := by
  have h := c9_disconnect_idempotent c9WitState
  exact ⟨rfl, (h.2.2.1 rfl).1, (h.2.2.1 rfl).2, h.1⟩

/- ### Claim C7: the inConfigMode → loggedIn invariant -/

/-- A reachable privileged session: connected, logged in, at the `#`
    prompt, not yet in config mode. -/
def c7CounterStart : Session :=
  { initialSession with connected := true, loggedIn := true, currentPrompt := hashPrompt }

/-- The reviewer-visible run refuting C7: `enterConfigMode` issues
    `configure terminal`; a data chunk ending in `--More--` fills the
    pagination accumulator; the socket closes (clearing `loggedIn` but not
    the still-armed command timer); the timer fires and best-effort resolves
    the command promise with the partial content, so the `await` resumes and
    the continuation sets `inConfigMode := true` on a logged-out session. -/
def c7CounterFinal : Session :=
  enterConfigModeResume
    (commandTimerFire
      (closeEvent
        (handleData ("junk".toList ++ moreTok)
          (enterConfigModeStart c7CounterStart))))

/-- Counterexample to claim C7 as stated: the program reaches a session
    state with `inConfigMode = true` and `loggedIn = false`.  The command
    promise is pending after the entry of `enterConfigMode` and settled
    (resolved with the partial content) after the timer fires, so the
    continuation at index.js 976 really runs. -/
theorem c7_config_without_login :
    (enterConfigModeStart c7CounterStart).cmdPromise = CmdPromise.pending ∧
    (commandTimerFire
        (closeEvent
          (handleData ("junk".toList ++ moreTok)
            (enterConfigModeStart c7CounterStart)))).cmdPromise =
      CmdPromise.resolvedWith "junk".toList ∧
    c7CounterFinal.inConfigMode = true ∧
    c7CounterFinal.loggedIn = false := by
  decide

/-- Claim C7 (amended): `inConfigMode = true → loggedIn = true` is preserved
    by data handling (login and command phases), `sendCommand`,
    `enterEnableMode`, the synchronous entry of `enterConfigMode`,
    `disconnect`, the socket `close` and `error` handlers, both timers, TCP
    establishment and `connect` itself; the post-await continuation of
    `enterConfigMode` (index.js 976) sets `inConfigMode` unconditionally and
    preserves the invariant only when the session is still logged in at the
    moment the awaited command resolves — after an intervening close or
    disconnect it violates it (see the counterexample). -/
theorem c7_config_implies_loggedIn (s : Session) (d cmd ep : List Char)
    (h : s.inConfigMode = true → s.loggedIn = true) :
    ((handleData d s).inConfigMode = true → (handleData d s).loggedIn = true) ∧
    ((sendCommandStart cmd s).inConfigMode = true →
      (sendCommandStart cmd s).loggedIn = true) ∧
    ((enterEnableMode s).inConfigMode = true → (enterEnableMode s).loggedIn = true) ∧
    ((enterConfigModeStart s).inConfigMode = true →
      (enterConfigModeStart s).loggedIn = true) ∧
    (s.loggedIn = true →
      (enterConfigModeResume s).inConfigMode = true →
      (enterConfigModeResume s).loggedIn = true) ∧
    (((disconnectOp s).1).inConfigMode = true → ((disconnectOp s).1).loggedIn = true) ∧
    ((closeEvent s).inConfigMode = true → (closeEvent s).loggedIn = true) ∧
    ((errorEvent s).inConfigMode = true → (errorEvent s).loggedIn = true) ∧
    ((commandTimerFire s).inConfigMode = true → (commandTimerFire s).loggedIn = true) ∧
    ((connTimerFire s).inConfigMode = true → (connTimerFire s).loggedIn = true) ∧
    ((socketConnected s).inConfigMode = true → (socketConnected s).loggedIn = true) ∧
    ((connectStart ep).inConfigMode = true → (connectStart ep).loggedIn = true) := by
  refine ⟨handleData_inv d s h, ?_, ?_, ?_, ?_, ?_, ?_, ?_, ?_, ?_, ?_, ?_⟩
  · rw [(sendCommandStart_flags cmd s).1, (sendCommandStart_flags cmd s).2]
    exact h
  · simp only [enterEnableMode]
    split_ifs with h1 h2
    · exact h
    · exact h
    · rw [(sendCommandStart_flags enableTok s).1, (sendCommandStart_flags enableTok s).2]
      exact h
  · simp only [enterConfigModeStart]
    split_ifs with h1 h2 h3
    · exact h
    · exact h
    · rw [(sendCommandStart_flags cfgTermTok s).1, (sendCommandStart_flags cfgTermTok s).2]
      exact h
    · rw [(sendCommandStart_flags enableTok s).1, (sendCommandStart_flags enableTok s).2]
      exact h
  · intro hlog _
    exact hlog
  · simp only [disconnectOp]
    split_ifs with h1
    · exact h
    · intro hc
      cases hc
  · intro hc
    cases hc
  · simp only [errorEvent]
    rw [settleConnect_inConfigMode, settleConnect_loggedIn]
    exact h
  · rw [(commandTimerFire_flags s).1, (commandTimerFire_flags s).2]
    exact h
  · simp only [connTimerFire]
    split_ifs with h1
    · rw [settleConnect_inConfigMode, settleConnect_loggedIn]
      exact h
    · exact h
  · exact h
  · intro hc
    cases hc

/-- A connected, logged-in, config-mode session for the C7 witness. -/
def c7WitState : Session :=
  { initialSession with connected := true, loggedIn := true, inConfigMode := true }

/-- Claim C7 witness: the invariant holds and is preserved at the concrete
    logged-in, config-mode session, both by data handling and by the
    still-logged-in resumption of `enterConfigMode`. -/
theorem c7_config_implies_loggedIn_witness :
    (c7WitState.inConfigMode = true → c7WitState.loggedIn = true) ∧
    ((handleData "abc".toList c7WitState).inConfigMode = true →
      (handleData "abc".toList c7WitState).loggedIn = true) ∧
    (c7WitState.loggedIn = true) ∧
    ((enterConfigModeResume c7WitState).loggedIn = true) := by
  have h := c7_config_implies_loggedIn c7WitState "abc".toList "show".toList [] (fun _ => rfl)
  exact ⟨fun _ => rfl, h.1, rfl, h.2.2.2.2.1 rfl rfl⟩

/- ### Claim C3: pagination assembly -/

theorem gtPrompt_eq : gtPrompt = ['>'] := by decide
theorem hashPrompt_eq : hashPrompt = ['#'] := by decide
theorem cfgPrompt_concat : cfgPrompt = "(config)".toList ++ ['#'] := by decide
theorem cfgIfPrompt_concat : cfgIfPrompt = "(config-if)".toList ++ ['#'] := by decide
theorem moreTok_concat : moreTok = "--More-".toList ++ ['-'] := by decide

/-- A buffer ending in the `--More--` marker never looks like a command
    prompt: its trimmed text ends in `-`. -/
theorem detectCommandPrompt_marker (p : List Char) :
    detectCommandPrompt (p ++ moreTok) = false := by
  have hm : p ++ moreTok = (p ++ "--More-".toList) ++ ['-'] := by
    rw [moreTok_concat, List.append_assoc]
  rw [hm]
  unfold detectCommandPrompt
  rw [jsTrim_append_notWs _ (by decide)]
  simp only [promptList, List.any_cons, List.any_nil]
  rw [gtPrompt_eq, hashPrompt_eq, cfgPrompt_concat, cfgIfPrompt_concat]
  rw [isSuffixOf_singleton_concat, isSuffixOf_singleton_concat,
      isSuffixOf_concat_concat_ne _ _ (by decide),
      isSuffixOf_concat_concat_ne _ _ (by decide)]
  decide

/-- A buffer ending in `#` is detected as a command prompt. -/
theorem detectCommandPrompt_hash (y : List Char) :
    detectCommandPrompt (y ++ ['#']) = true := by
  unfold detectCommandPrompt
  rw [jsTrim_append_notWs _ (by decide)]
  simp only [promptList, List.any_cons, List.any_nil]
  rw [hashPrompt_eq, isSuffixOf_singleton_concat]
  simp

/-- One `--More--` page under the ceiling (index.js 688-704): the page text
    before the marker is appended to the accumulator, the page counter is
    bumped, a space is written (pure output), and the buffer is cleared. -/
theorem markerStep (pg : List Char) (s : Session)
    (hlog : s.loggedIn = true) (hwait : s.waitingForResponse = true)
    (hbuf : s.buffer = []) (hn : s.pageCount + 1 ≤ 100)
    (hidx : idxSub? moreTok (pg ++ moreTok) = some pg.length) :
    handleData (pg ++ moreTok) s =
      { s with
          buffer := []
          pageCount := s.pageCount + 1
          accumulatedResponse := s.accumulatedResponse ++ pg } := by
  have hlt : ¬ (100 < s.pageCount + 1) := by omega
  have hhas : hasSub (pg ++ moreTok) moreTok = true := hasSub_of_idx hidx
  simp only [handleData, hbuf, List.nil_append, hlog, awaitStep,
    detectCommandPrompt_marker, hhas, moreArrived, hwait, hidx, hlt,
    List.take_left]
  simp

/-- The final chunk of a paginated exchange: a buffer ending in `\n#` is a
    command prompt, so `handleData` extracts `accumulated ++ buffer` and
    resolves the pending command promise with it. -/
theorem finalStep (tail : List Char) (s : Session)
    (hlog : s.loggedIn = true) (hwait : s.waitingForResponse = true)
    (hbuf : s.buffer = []) (hres : s.hasResolver = true)
    (hpend : s.cmdPromise = CmdPromise.pending) :
    (handleData (tail ++ ['\n', '#']) s).cmdPromise =
      CmdPromise.resolvedWith
        (extractCommandResponse s.lastCommand
          (s.accumulatedResponse ++ (tail ++ ['\n', '#']))) ∧
    (handleData (tail ++ ['\n', '#']) s).waitingForResponse = false := by
  have hsplit : tail ++ ['\n', '#'] = (tail ++ ['\n']) ++ ['#'] := by
    rw [List.append_assoc]; rfl
  have hdet : detectCommandPrompt (tail ++ ['\n', '#']) = true := by
    rw [hsplit]; exact detectCommandPrompt_hash _
  simp only [handleData, hbuf, List.nil_append, hlog, hwait, awaitStep, hdet,
    promptArrived, reduceIte]
  by_cases hacc : s.accumulatedResponse.isEmpty = false
  · simp only [hacc, reduceIte]
    simp only [resolveIfResolver, updateCurrentPrompt]
    split_ifs <;>
      simp_all [settleCmd_cmdPromise]
  · have hacc' : s.accumulatedResponse = [] := by
      cases h : s.accumulatedResponse
      · rfl
      · rw [h] at hacc; simp at hacc
    simp only [hacc', List.isEmpty_nil, reduceIte]
    simp only [resolveIfResolver, updateCurrentPrompt]
    split_ifs <;>
      simp_all [settleCmd_cmdPromise]

/-- Run a list of data events through `handleData`. -/
def runData (chunks : List (List Char)) (s : Session) : Session :=
  chunks.foldl (fun st d => handleData d st) s

/-- Concatenation of a list of pages. -/
def pageConcat (pages : List (List Char)) : List Char :=
  pages.foldr (· ++ ·) []

theorem pageConcat_cons (pg : List Char) (pages : List (List Char)) :
    pageConcat (pg :: pages) = pg ++ pageConcat pages := rfl

/-- Feeding any number of under-the-ceiling `--More--` pages accumulates
    exactly their concatenation and bumps the page counter accordingly. -/
theorem runPages (pages : List (List Char)) (s : Session)
    (hlog : s.loggedIn = true) (hwait : s.waitingForResponse = true)
    (hbuf : s.buffer = []) (hn : s.pageCount + pages.length ≤ 100)
    (hall : ∀ pg ∈ pages, idxSub? moreTok (pg ++ moreTok) = some pg.length) :
    runData (pages.map (fun pg => pg ++ moreTok)) s =
      { s with
          buffer := []
          pageCount := s.pageCount + pages.length
          accumulatedResponse := s.accumulatedResponse ++ pageConcat pages } := by
  induction pages generalizing s with
  | nil =>
    simp only [runData, List.map_nil, List.foldl_nil, pageConcat, List.foldr_nil,
      List.append_nil, List.length_nil, Nat.add_zero]
    rw [← hbuf]
  | cons pg rest ih =>
    have hstep := markerStep pg s hlog hwait hbuf
      (by simp only [List.length_cons] at hn; omega)
      (hall pg (by simp))
    simp only [runData, List.map_cons, List.foldl_cons] at ih ⊢
    have ihs := ih ({ s with buffer := [], pageCount := s.pageCount + 1, accumulatedResponse := s.accumulatedResponse ++ pg }) hlog hwait rfl
      (by show s.pageCount + 1 + rest.length <= 100
          simp only [List.length_cons] at hn
          omega)
      (fun q hq => hall q (by simp [hq]))
    rw [hstep, ihs]
    dsimp only
    simp only [Session.mk.injEq, pageConcat_cons, List.length_cons, List.append_assoc,
      true_and, and_true]
    omega

/-- The over-the-ceiling step (index.js 666-687): on the marker that takes
    the page counter past 100, the raw buffer (marker included) is appended
    and the command promise is resolved with the raw accumulated text. -/
theorem markerAbort (pg : List Char) (s : Session)
    (hlog : s.loggedIn = true) (hwait : s.waitingForResponse = true)
    (hbuf : s.buffer = []) (hn : 100 < s.pageCount + 1)
    (hidx : idxSub? moreTok (pg ++ moreTok) = some pg.length)
    (hres : s.hasResolver = true) (hpend : s.cmdPromise = CmdPromise.pending) :
    (handleData (pg ++ moreTok) s).cmdPromise =
      CmdPromise.resolvedWith (s.accumulatedResponse ++ (pg ++ moreTok)) ∧
    (handleData (pg ++ moreTok) s).waitingForResponse = false := by
  have hhas := hasSub_of_idx hidx
  simp only [handleData, hbuf, List.nil_append, hlog, hwait, awaitStep,
    detectCommandPrompt_marker, hhas, moreArrived, reduceIte, hn]
  simp only [resolveIfResolver, hres]
  split_ifs <;> simp_all [settleCmd_cmdPromise]

/- ### extractCommandResponse on clean assembled responses -/

theorem echoStrip_none {cmd r : List Char} (h : idxSub? cmd r = none) :
    echoStrip cmd r = r := by
  unfold echoStrip
  rw [h]

theorem removeMore_none {r : List Char} (h : idxSub? moreTok r = none) :
    removeMore r = r := by
  unfold removeMore
  simp only [removeMoreF, h]

/-- Prompt stripping on a response ending in `#`: the first matching prompt
    in source order is `#`, and its last occurrence is the final character,
    so exactly that final `#` is removed. -/
theorem promptStrip_concat_hash (X : List Char) :
    promptStrip (X ++ ['#']) = X := by
  unfold promptStrip
  rw [jsTrim_append_notWs _ (by decide)]
  have h1 : gtPrompt.isSuffixOf (X.dropWhile jsWs ++ ['#']) = false := by
    rw [gtPrompt_eq, isSuffixOf_singleton_concat]; decide
  have h2 : hashPrompt.isSuffixOf (X.dropWhile jsWs ++ ['#']) = true := by
    rw [hashPrompt_eq, isSuffixOf_singleton_concat]; decide
  simp only [promptList, List.find?_cons, h1, h2]
  rw [hashPrompt_eq, lastIdxSub?_singleton_concat]
  exact List.take_left X ['#']

/-- `extractCommandResponse` on an already-clean response `P ++ "\n#"`:
    no echo, no markers, already trimmed — the result is exactly `P`. -/
theorem extract_clean (cmd P : List Char)
    (hEcho : idxSub? cmd (P ++ ['\n', '#']) = none)
    (hMore : idxSub? moreTok (P ++ ['\n', '#']) = none)
    (hTrim : jsTrim P = P) :
    extractCommandResponse cmd (P ++ ['\n', '#']) = P := by
  unfold extractCommandResponse
  rw [echoStrip_none hEcho, removeMore_none hMore]
  have hsplit : P ++ ['\n', '#'] = (P ++ ['\n']) ++ ['#'] := by
    rw [List.append_assoc]; rfl
  rw [hsplit, promptStrip_concat_hash, jsTrim_append_ws _ (by decide), hTrim]

/-- A connected, logged-in session. -/
def readyState : Session :=
  { initialSession with connected := true, loggedIn := true }

/-- The session right after `sendCommand(cmd)` was issued on a ready
    session: waiting for the response, resolver armed, promise pending. -/
def awaitingState (cmd : List Char) : Session :=
  sendCommandStart cmd readyState

/-- Claim C3: (1) a response split into `K = pages.length + 1` pages by
    `--More--` markers (`K - 1 ≤ 99`, i.e. `K` up to the ceiling), echo-free
    and trimmed, assembles to exactly the concatenation of the pages with
    all markers removed, resolving the pending command; (2) the marker that
    drives the page counter past the 100-page ceiling aborts pagination and
    resolves the command with the partial accumulated text (the raw final
    buffer included) instead of hanging. -/
theorem c3_pagination_assembly :
    (∀ (cmd : List Char) (pages : List (List Char)) (pLast : List Char),
      pages.length ≤ 99 →
      (∀ pg ∈ pages, idxSub? moreTok (pg ++ moreTok) = some pg.length) →
      idxSub? cmd (pageConcat pages ++ pLast ++ ['\n', '#']) = none →
      idxSub? moreTok (pageConcat pages ++ pLast ++ ['\n', '#']) = none →
      jsTrim (pageConcat pages ++ pLast) = pageConcat pages ++ pLast →
      (runData (pages.map (fun pg => pg ++ moreTok) ++ [pLast ++ ['\n', '#']])
          (awaitingState cmd)).cmdPromise =
        CmdPromise.resolvedWith (pageConcat pages ++ pLast) ∧
      (runData (pages.map (fun pg => pg ++ moreTok) ++ [pLast ++ ['\n', '#']])
          (awaitingState cmd)).waitingForResponse = false) ∧
    (∀ (cmd : List Char) (pages : List (List Char)) (pExtra : List Char),
      pages.length = 100 →
      (∀ pg ∈ pages, idxSub? moreTok (pg ++ moreTok) = some pg.length) →
      idxSub? moreTok (pExtra ++ moreTok) = some pExtra.length →
      (runData ((pages ++ [pExtra]).map (fun pg => pg ++ moreTok))
          (awaitingState cmd)).cmdPromise =
        CmdPromise.resolvedWith (pageConcat pages ++ (pExtra ++ moreTok)) ∧
      (runData ((pages ++ [pExtra]).map (fun pg => pg ++ moreTok))
          (awaitingState cmd)).waitingForResponse = false) := by
  constructor
  · intro cmd pages pLast hK hall hEcho hMore hTrim
    have h0 := runPages pages (awaitingState cmd) rfl rfl rfl
      (by show 0 + pages.length ≤ 100; omega) hall
    simp only [runData] at h0 ⊢
    rw [List.foldl_append, h0, List.foldl_cons, List.foldl_nil]
    have hfs := finalStep pLast
      ({ awaitingState cmd with
          buffer := []
          pageCount := (awaitingState cmd).pageCount + pages.length
          accumulatedResponse :=
            (awaitingState cmd).accumulatedResponse ++ pageConcat pages })
      rfl rfl rfl rfl rfl
    refine ⟨?_, hfs.2⟩
    rw [hfs.1]
    show CmdPromise.resolvedWith
        (extractCommandResponse cmd (pageConcat pages ++ (pLast ++ ['\n', '#']))) =
      CmdPromise.resolvedWith (pageConcat pages ++ pLast)
    rw [← List.append_assoc]
    rw [extract_clean cmd (pageConcat pages ++ pLast) hEcho hMore hTrim]
  · intro cmd pages pExtra h100 hall hidx
    have h0 := runPages pages (awaitingState cmd) rfl rfl rfl
      (by show 0 + pages.length ≤ 100; omega) hall
    simp only [runData] at h0 ⊢
    rw [List.map_append, List.map_cons, List.map_nil, List.foldl_append, h0,
      List.foldl_cons, List.foldl_nil]
    have hab := markerAbort pExtra
      ({ awaitingState cmd with
          buffer := []
          pageCount := (awaitingState cmd).pageCount + pages.length
          accumulatedResponse :=
            (awaitingState cmd).accumulatedResponse ++ pageConcat pages })
      rfl rfl rfl
      (by show 100 < 0 + pages.length + 1
          omega)
      hidx rfl rfl
    refine ⟨?_, hab.2⟩
    rw [hab.1]
    exact rfl

/-- Claim C3 witness: a concrete 3-page exchange assembles to
    `page1 page2 page3`, and 101 marker pages hit the ceiling and resolve
    with the partial accumulation. -/
theorem c3_pagination_assembly_witness :
    ((runData (List.map (fun pg => pg ++ moreTok)
        ["page1 ".toList, "page2 ".toList] ++ ["page3".toList ++ ['\n', '#']])
        (awaitingState "nocmd".toList)).cmdPromise =
      CmdPromise.resolvedWith
        (pageConcat ["page1 ".toList, "page2 ".toList] ++ "page3".toList)) ∧
    (pageConcat ["page1 ".toList, "page2 ".toList] ++ "page3".toList =
      "page1 page2 page3".toList) ∧
    ((runData (List.map (fun pg => pg ++ moreTok)
        (List.replicate 100 "a ".toList ++ ["zz".toList]))
        (awaitingState "show x".toList)).cmdPromise =
      CmdPromise.resolvedWith
        (pageConcat (List.replicate 100 "a ".toList) ++ ("zz".toList ++ moreTok))) := by
  refine ⟨?_, by decide, ?_⟩
  · exact ((c3_pagination_assembly).1 "nocmd".toList
      ["page1 ".toList, "page2 ".toList] "page3".toList
      (by decide) (by decide) (by decide) (by decide) (by decide)).1
  · exact ((c3_pagination_assembly).2 "show x".toList
      (List.replicate 100 "a ".toList) "zz".toList
      (by decide) (by decide) (by decide)).1

/- ### The response formatter (src/unnamed/part_001, utils/responseFormatter.js) -/

theorem length_dropWhile_le (p : Char → Bool) (l : List Char) :
    (l.dropWhile p).length ≤ l.length := by
  induction l with
  | nil => simp
  | cons x t ih =>
    by_cases hx : p x = true
    · rw [List.dropWhile_cons_of_pos hx]
      exact Nat.le_succ_of_le ih
    · rw [List.dropWhile_cons_of_neg (by simp [hx])]

/-- The `.` character class of a JS regex without the `s` flag: anything but
    a line terminator. -/
def jsDot (c : Char) : Bool :=
  !(c == '\n' || c == '\r' || c == ' ' || c == ' ')

/-- `replace(/\r\n/g, '\n')` (responseFormatter line 51). -/
def normCRLF : List Char → List Char
  | [] => []
  | [c] => [c]
  | a :: b :: t =>
    if a == '\r' && b == '\n' then '\n' :: normCRLF t
    else a :: normCRLF (b :: t)

/-- `replace(/.\x08/g, '')` (line 55): any non-line-terminator character
    followed by a backspace is deleted; scanning is left-to-right and
    non-overlapping. -/
def stripDotBS : List Char → List Char
  | [] => []
  | [c] => [c]
  | a :: b :: t =>
    if jsDot a && b == '\x08' then stripDotBS t
    else a :: stripDotBS (b :: t)

/-- `replace(/\x08+\s*\x08*/g, '')` (line 58): at a backspace, the greedy
    match removes the whole backspace run (the leading backspace `c` and the
    leading backspaces of `t`), any following whitespace run, and any
    further backspace run (the trailing `\x08*` cannot fail); scanning
    resumes after the match.  Fuelled for kernel computability; every step
    consumes at least one character, so fuel `length` suffices. -/
def stripBSRunF : Nat → List Char → List Char
  | 0, l => l
  | _, [] => []
  | fuel + 1, c :: t =>
    if c == '\x08' then
      stripBSRunF fuel (((t.dropWhile (fun x => x == '\x08')).dropWhile
        jsWs).dropWhile (fun x => x == '\x08'))
    else c :: stripBSRunF fuel t

def stripBSRun (l : List Char) : List Char :=
  stripBSRunF l.length l

theorem stripBSRunF_fuel (f1 : Nat) : ∀ (f2 : Nat) (l : List Char),
    l.length ≤ f1 → l.length ≤ f2 → stripBSRunF f1 l = stripBSRunF f2 l := by
  induction f1 with
  | zero =>
    intro f2 l h1 h2
    have : l = [] := List.length_eq_zero.mp (by omega)
    subst this
    cases f2 <;> rfl
  | succ f1 ih =>
    intro f2 l h1 h2
    cases l with
    | nil => cases f2 <;> rfl
    | cons c t =>
      cases f2 with
      | zero => simp at h2
      | succ f2 =>
        simp only [stripBSRunF]
        have l1 := length_dropWhile_le (fun x => x == '\x08') t
        have l2 := length_dropWhile_le jsWs (t.dropWhile (fun x => x == '\x08'))
        have l3 := length_dropWhile_le (fun x => x == '\x08')
          ((t.dropWhile (fun x => x == '\x08')).dropWhile jsWs)
        simp only [List.length_cons] at h1 h2
        by_cases hc : (c == '\x08') = true
        · rw [if_pos hc, if_pos hc]
          apply ih <;> omega
        · rw [if_neg hc, if_neg hc]
          rw [ih f2 t (by omega) (by omega)]

/-- `replace(/\x1b\[[0-9;]*[a-zA-Z]/g, '')` (line 61): an ANSI CSI sequence
    (`ESC [`, digits and semicolons, one ASCII letter) is deleted; on a
    failed match the scan resumes one character later, exactly as the JS
    regex engine does. -/
def stripAnsiF : Nat → List Char → List Char
  | 0, l => l
  | _, [] => []
  | fuel + 1, c :: t =>
    if c == '\x1b' then
      match t with
      | '[' :: u =>
        (match u.dropWhile (fun x => x.isDigit || x == ';') with
         | x :: rest =>
           if x.isAlpha then stripAnsiF fuel rest
           else c :: stripAnsiF fuel t
         | [] => c :: stripAnsiF fuel t)
      | _ => c :: stripAnsiF fuel t
    else c :: stripAnsiF fuel t

def stripAnsi (l : List Char) : List Char :=
  stripAnsiF l.length l

/-- The control characters removed by
    `replace(/[\x00-\x08\x0B\x0C\x0E-\x1F]/g, '')` (line 64); the set
    contains the backspace `\x08` and the escape `\x1b`. -/
def ctrlRemovable (c : Char) : Bool :=
  c.toNat ≤ 0x08 || c.toNat == 0x0b || c.toNat == 0x0c ||
  (0x0e ≤ c.toNat && c.toNat ≤ 0x1f)

/-- `cleanResponse` (responseFormatter lines 49-67): CRLF normalization,
    character-backspace pairs, backspace runs, ANSI escapes, then the
    control-character class. -/
def cleanResponse (response : List Char) : List Char :=
  (stripAnsi (stripBSRun (stripDotBS (normCRLF response)))).filter
    (fun c => !(ctrlRemovable c))

/- ### Claim C10: cleanResponse output -/

/-- Claim C10 counterexample: the input `"a\x08\x08\r\n"` contains a CRLF
    pair, but its cleaned output is empty — the LF produced by CRLF
    normalization was swallowed by the backspace-run removal, so the CRLF
    pair does NOT appear in the output as a lone LF. -/
theorem c10_crlf_not_preserved :
    hasSub "a\x08\x08\r\n".toList ['\r', '\n'] = true ∧
    cleanResponse "a\x08\x08\r\n".toList = [] ∧
    '\n' ∉ cleanResponse "a\x08\x08\r\n".toList := by
  refine ⟨by decide, by decide, by decide⟩

/-- Claim C10 (amended): for every input, the output of `cleanResponse`
    contains no backspace (0x08), no ESC (0x1B) and no control character in
    0x00-0x08, 0x0B, 0x0C, 0x0E-0x1F (the final character-class pass removes
    them all); every CRLF pair is rewritten to a lone LF by the first pass,
    but that LF is not guaranteed to survive the later backspace-run
    removal. -/
theorem c10_clean_no_ctrl (s : List Char) (c : Char) (hc : c ∈ cleanResponse s) :
    c ≠ '\x08' ∧ c ≠ '\x1b' ∧ ctrlRemovable c = false := by
  have h := List.of_mem_filter hc
  simp only [Bool.not_eq_true'] at h
  refine ⟨?_, ?_, h⟩
  · intro he
    rw [he] at h
    exact absurd h (by decide)
  · intro he
    rw [he] at h
    exact absurd h (by decide)

/-- Claim C10 witness: the visible characters of a cleaned mixed input are
    control-free. -/
theorem c10_clean_no_ctrl_witness :
    'r' ∈ cleanResponse "\x1b[31mred\x08\x07\r\n".toList ∧
    'r' ≠ '\x08' ∧ 'r' ≠ '\x1b' ∧ ctrlRemovable 'r' = false := by
  refine ⟨by decide, c10_clean_no_ctrl "\x1b[31mred\x08\x07\r\n".toList 'r' (by decide)⟩

/- ### formatMacAddressTable (responseFormatter lines 74-151) -/

/-- `replace(/\x08+\s*\x08+/g, '')` (line 81): unlike line 58 this requires
    at least one TRAILING backspace.  With the regex's backtracking: at a
    backspace run of length `m` followed by whitespace and then text,
    a match exists iff a backspace follows the whitespace (match = run,
    whitespace, trailing run) or `m ≥ 2` (match = the run alone, whitespace
    kept); a lone backspace with no backspace after the whitespace does not
    match and is kept.  Fuelled for kernel computability. -/
def stripBSRunStrictF : Nat → List Char → List Char
  | 0, l => l
  | _, [] => []
  | fuel + 1, c :: t =>
    if c == '\x08' then
      let afterBs := t.dropWhile (fun x => x == '\x08')
      let afterWs := afterBs.dropWhile jsWs
      if afterWs.head? == some '\x08' then
        stripBSRunStrictF fuel (afterWs.dropWhile (fun x => x == '\x08'))
      else if t.head? == some '\x08' then
        stripBSRunStrictF fuel afterBs
      else c :: stripBSRunStrictF fuel t
    else c :: stripBSRunStrictF fuel t

def stripBSRunStrict (l : List Char) : List Char :=
  stripBSRunStrictF l.length l

/-- JavaScript `split('\n')`: always at least one part. -/
def splitLines : List Char → List (List Char)
  | [] => [[]]
  | c :: t =>
    if c == '\n' then [] :: splitLines t
    else
      match splitLines t with
      | [] => [[c]]
      | l :: ls => (c :: l) :: ls

/-- `trim().split(/\s+/)` on an already-trimmed line: the maximal runs of
    non-whitespace characters, in order.  Fuelled for kernel
    computability. -/
def wsTokensF : Nat → List Char → List (List Char)
  | 0, _ => []
  | _, [] => []
  | fuel + 1, c :: t =>
    if jsWs c then wsTokensF fuel t
    else (c :: t.takeWhile (fun x => !(jsWs x))) ::
      wsTokensF fuel (t.dropWhile (fun x => !(jsWs x)))

def wsTokens (l : List Char) : List (List Char) :=
  wsTokensF l.length l

/-- One row of the structured MAC table (responseFormatter lines 130-136). -/
structure MacEntry where
  vlan : List Char
  macAddress : List Char
  type : List Char
  port : List Char
  state : List Char
deriving DecidableEq, Repr

/-- The per-row field extraction (lines 111-136): `vlan`, `macAddress` and
    `type` are the first three whitespace-separated fields; `port` is the
    fourth, absorbing the fifth when it is literally `GPON` and at least six
    fields exist; `state` is the last field. -/
def mkMacEntry (fields : List (List Char)) : MacEntry :=
  let port0 := fields.getD 3 []
  { vlan := fields.getD 0 []
    macAddress := fields.getD 1 []
    type := fields.getD 2 []
    port :=
      if port0 == "GPON".toList && decide (6 ≤ fields.length) then
        port0 ++ ' ' :: fields.getD 4 []
      else port0
    state := (fields.getLast?).getD [] }

def sepTrigger : List Char := "----   --------------".toList
def noiseDashes : List Char := "------------------".toList
def noiseTitle : List Char := "Mac Address Table".toList
def noiseVlan : List Char := "Vlan".toList
def noiseTotal : List Char := "Total Addresses Found".toList

/-- The line loop of `formatMacAddressTable` (lines 90-142): a line
    containing the literal separator `----   --------------` switches on the
    data section; afterwards non-noise lines with at least five
    whitespace-separated fields become entries. -/
def macRows : List (List Char) → Bool → List MacEntry
  | [], _ => []
  | line :: rest, inData =>
    if hasSub line sepTrigger then macRows rest true
    else if inData && !(jsTrim line).isEmpty then
      if hasSub line noiseDashes || hasSub line noiseTitle ||
          hasSub line noiseVlan || hasSub line noiseTotal then
        macRows rest inData
      else
        let fields := wsTokens (jsTrim line)
        if 5 ≤ fields.length then mkMacEntry fields :: macRows rest inData
        else macRows rest inData
    else macRows rest inData

/-- JavaScript `String.prototype.padEnd`. -/
def padEnd (l : List Char) (w : Nat) : List Char :=
  l ++ List.replicate (w - l.length) ' '

/-- JavaScript `Array.prototype.join`. -/
def joinSep (sep : List Char) : List (List Char) → List Char
  | [] => []
  | [x] => x
  | x :: xs => x ++ sep ++ joinSep sep xs

def macKeys : List (List Char) :=
  ["vlan".toList, "macAddress".toList, "type".toList, "port".toList, "state".toList]

def macFields (e : MacEntry) : List (List Char) :=
  [e.vlan, e.macAddress, e.type, e.port, e.state]

/-- `formatAsTable` (lines 158-191): header, dashed separator and padded
    rows over the five keys of a MAC entry (`Object.keys` insertion
    order). -/
def formatAsTable (data : List MacEntry) : List Char :=
  if data.isEmpty then "No data".toList
  else
    let widths := (List.range 5).map (fun j =>
      data.foldl (fun w e => Nat.max w ((macFields e).getD j []).length)
        ((macKeys.getD j []).length))
    let header := joinSep " | ".toList
      ((List.range 5).map (fun j => padEnd (macKeys.getD j []) (widths.getD j 0)))
    let sepRow := joinSep "-+-".toList
      ((List.range 5).map (fun j => List.replicate (widths.getD j 0) '-'))
    let rows := data.map (fun e => joinSep " | ".toList
      ((List.range 5).map (fun j => padEnd ((macFields e).getD j []) (widths.getD j 0))))
    header ++ '\n' :: sepRow ++ '\n' :: (rows.map (fun r => r ++ ['\n'])).foldr (· ++ ·) []

/-- The result record `{ raw, formatted, data }` of the formatter. -/
structure FormattedTable where
  raw : List Char
  formatted : List Char
  data : List MacEntry
deriving DecidableEq, Repr

/-- `formatMacAddressTable` (lines 74-151): clean, apply the aggressive
    backspace pass, split into non-blank lines, run the line loop. -/
def formatMacAddressTable (response : List Char) : FormattedTable :=
  let cleaned := stripBSRunStrict (cleanResponse response)
  let lines := (splitLines cleaned).filter (fun l => !(jsTrim l).isEmpty)
  let macAddresses := macRows lines false
  { raw := cleaned, formatted := formatAsTable macAddresses, data := macAddresses }

/- ### Cleaning is the identity on plain text -/

/-- Characters on which every cleaning pass is inert: not CR and not in the
    removed control class (which contains backspace and ESC). -/
def plainOk (c : Char) : Bool :=
  !(c == '\r') && !(ctrlRemovable c)

theorem plainOk_not_cr {c : Char} (h : plainOk c = true) : (c == '\r') = false := by
  simp only [plainOk, Bool.and_eq_true, Bool.not_eq_true'] at h
  exact h.1

theorem plainOk_not_ctrl {c : Char} (h : plainOk c = true) : ctrlRemovable c = false := by
  simp only [plainOk, Bool.and_eq_true, Bool.not_eq_true'] at h
  exact h.2

theorem plainOk_not_bs {c : Char} (h : plainOk c = true) : (c == '\x08') = false := by
  cases hc : c == '\x08'
  · rfl
  · have : c = '\x08' := by simpa using hc
    subst this
    exact absurd (plainOk_not_ctrl h) (by decide)

theorem plainOk_not_esc {c : Char} (h : plainOk c = true) : (c == '\x1b') = false := by
  cases hc : c == '\x1b'
  · rfl
  · have : c = '\x1b' := by simpa using hc
    subst this
    exact absurd (plainOk_not_ctrl h) (by decide)

theorem normCRLF_id : ∀ (l : List Char), (∀ x ∈ l, (x == '\r') = false) → normCRLF l = l
  | [], _ => rfl
  | [c], _ => rfl
  | a :: b :: t, h => by
    have ha := h a (by simp)
    have hrec := normCRLF_id (b :: t) (fun x hx => h x (by simp at hx ⊢; tauto))
    simp [normCRLF, ha, hrec]

theorem stripDotBS_id : ∀ (l : List Char), (∀ x ∈ l, (x == '\x08') = false) → stripDotBS l = l
  | [], _ => rfl
  | [c], _ => rfl
  | a :: b :: t, h => by
    have hb := h b (by simp)
    have hrec := stripDotBS_id (b :: t) (fun x hx => h x (by simp at hx ⊢; tauto))
    simp [stripDotBS, hb, hrec]

theorem stripBSRunF_id (f : Nat) : ∀ (l : List Char), l.length ≤ f →
    (∀ x ∈ l, (x == '\x08') = false) → stripBSRunF f l = l := by
  induction f with
  | zero =>
    intro l h1 _
    have : l = [] := List.length_eq_zero.mp (by omega)
    subst this
    rfl
  | succ f ih =>
    intro l h1 h2
    cases l with
    | nil => rfl
    | cons c t =>
      have hc := h2 c (by simp)
      have hrec := ih t (by simp at h1; omega) (fun x hx => h2 x (by simp [hx]))
      simp [stripBSRunF, hc, hrec]

theorem stripAnsiF_id (f : Nat) : ∀ (l : List Char), l.length ≤ f →
    (∀ x ∈ l, (x == '\x1b') = false) → stripAnsiF f l = l := by
  induction f with
  | zero =>
    intro l h1 _
    have : l = [] := List.length_eq_zero.mp (by omega)
    subst this
    rfl
  | succ f ih =>
    intro l h1 h2
    cases l with
    | nil => rfl
    | cons c t =>
      have hc := h2 c (by simp)
      have hrec := ih t (by simp at h1; omega) (fun x hx => h2 x (by simp [hx]))
      simp [stripAnsiF, hc, hrec]

theorem stripBSRunStrictF_id (f : Nat) : ∀ (l : List Char), l.length ≤ f →
    (∀ x ∈ l, (x == '\x08') = false) → stripBSRunStrictF f l = l := by
  induction f with
  | zero =>
    intro l h1 _
    have : l = [] := List.length_eq_zero.mp (by omega)
    subst this
    rfl
  | succ f ih =>
    intro l h1 h2
    cases l with
    | nil => rfl
    | cons c t =>
      have hc := h2 c (by simp)
      have hrec := ih t (by simp at h1; omega) (fun x hx => h2 x (by simp [hx]))
      simp [stripBSRunStrictF, hc, hrec]

theorem stripBSRun_id (l : List Char) (h : ∀ x ∈ l, (x == '\x08') = false) :
    stripBSRun l = l :=
  stripBSRunF_id l.length l (by omega) h

theorem stripAnsi_id (l : List Char) (h : ∀ x ∈ l, (x == '\x1b') = false) :
    stripAnsi l = l :=
  stripAnsiF_id l.length l (by omega) h

/-- `cleanResponse` leaves plain text untouched. -/
theorem cleanResponse_id (l : List Char) (h : ∀ x ∈ l, plainOk x = true) :
    cleanResponse l = l := by
  unfold cleanResponse
  rw [normCRLF_id l (fun x hx => plainOk_not_cr (h x hx))]
  rw [stripDotBS_id l (fun x hx => plainOk_not_bs (h x hx))]
  rw [stripBSRun_id l (fun x hx => plainOk_not_bs (h x hx))]
  rw [stripAnsi_id l (fun x hx => plainOk_not_esc (h x hx))]
  rw [List.filter_eq_self.mpr (fun x hx => by simp [plainOk_not_ctrl (h x hx)])]

theorem stripBSRunStrict_id (l : List Char) (h : ∀ x ∈ l, (x == '\x08') = false) :
    stripBSRunStrict l = l :=
  stripBSRunStrictF_id l.length l (by omega) h

/- ### splitLines, wsTokens and field lemmas -/

theorem splitLines_no_nl : ∀ (a : List Char), (∀ x ∈ a, (x == '\n') = false) →
    splitLines a = [a]
  | [], _ => rfl
  | c :: t, h => by
    have hc := h c (by simp)
    have hrec := splitLines_no_nl t (fun x hx => h x (by simp [hx]))
    simp [splitLines, hc, hrec]

theorem splitLines_append (a rest : List Char) (h : ∀ x ∈ a, (x == '\n') = false) :
    splitLines (a ++ '\n' :: rest) = a :: splitLines rest := by
  induction a with
  | nil => simp [splitLines]
  | cons c t ih =>
    have hc := h c (by simp)
    have hrec := ih (fun x hx => h x (by simp [hx]))
    simp only [List.cons_append, splitLines, hc, reduceIte, hrec]
    simp [hrec]

theorem wsTokensF_ne_nil (f : Nat) : ∀ (l : List Char) (tok : List Char),
    tok ∈ wsTokensF f l → tok ≠ [] := by
  induction f with
  | zero => intro l tok h; simp [wsTokensF] at h
  | succ f ih =>
    intro l tok h
    cases l with
    | nil => simp [wsTokensF] at h
    | cons c t =>
      by_cases hc : jsWs c = true
      · simp only [wsTokensF, hc, reduceIte] at h
        exact ih t tok h
      · simp only [wsTokensF, hc, reduceIte] at h
        rcases List.mem_cons.mp h with h | h
        · subst h; simp
        · exact ih _ tok h

theorem wsTokens_ne_nil (l tok : List Char) (h : tok ∈ wsTokens l) : tok ≠ [] :=
  wsTokensF_ne_nil l.length l tok h

theorem getD_mem : ∀ (l : List (List Char)) (i : Nat), i < l.length →
    l.getD i [] ∈ l
  | [], i, h => by simp at h
  | x :: t, 0, _ => by simp
  | x :: t, i + 1, h => by
    simp only [List.getD_cons_succ]
    exact List.mem_cons_of_mem x (getD_mem t i (by simpa using h))

theorem getLastD_mem : ∀ (l : List (List Char)), l ≠ [] →
    (l.getLast?).getD [] ∈ l
  | [], h => absurd rfl h
  | [x], _ => by simp
  | x :: y :: t, _ => by
    have := getLastD_mem (y :: t) (by simp)
    rw [List.getLast?_cons_cons]
    exact List.mem_cons_of_mem x this

/-- All five fields of an extracted MAC entry are non-empty whenever the row
    has at least five fields and every field is a non-empty token. -/
theorem mkMacEntry_ne_nil (fields : List (List Char)) (h5 : 5 ≤ fields.length)
    (hne : ∀ tok ∈ fields, tok ≠ []) :
    (mkMacEntry fields).vlan ≠ [] ∧ (mkMacEntry fields).macAddress ≠ [] ∧
    (mkMacEntry fields).type ≠ [] ∧ (mkMacEntry fields).port ≠ [] ∧
    (mkMacEntry fields).state ≠ [] := by
  have h0 := hne _ (getD_mem fields 0 (by omega))
  have h1 := hne _ (getD_mem fields 1 (by omega))
  have h2 := hne _ (getD_mem fields 2 (by omega))
  have h3 := hne _ (getD_mem fields 3 (by omega))
  have hlast := hne _ (getLastD_mem fields (by
    intro hnil
    rw [hnil] at h5
    simp at h5))
  refine ⟨h0, h1, h2, ?_, hlast⟩
  simp only [mkMacEntry]
  split_ifs with hg
  · simp
  · exact h3

/-- The GPON join (lines 122-124): when the fourth field is `GPON` and a
    fifth (sub-identifier) and sixth field exist, the port is the joined
    `GPON <n>` value, a single field. -/
theorem mkMacEntry_gpon (f0 f1 f2 f4 f5 : List Char) (rest : List (List Char)) :
    (mkMacEntry (f0 :: f1 :: f2 :: "GPON".toList :: f4 :: f5 :: rest)).port =
      "GPON".toList ++ ' ' :: f4 := by
  simp only [mkMacEntry, List.getD_cons_succ, List.getD_cons_zero]
  rw [if_pos]
  simp only [beq_self_eq_true, Bool.true_and, List.length_cons, decide_eq_true_eq]
  omega

/- ### macRows step lemmas -/

theorem macRows_skip_pre (line : List Char) (rest : List (List Char))
    (h1 : hasSub line sepTrigger = false) :
    macRows (line :: rest) false = macRows rest false := by
  simp [macRows, h1]

theorem macRows_trigger (line : List Char) (rest : List (List Char)) (b : Bool)
    (h1 : hasSub line sepTrigger = true) :
    macRows (line :: rest) b = macRows rest true := by
  simp [macRows, h1]

theorem macRows_row (line : List Char) (rest : List (List Char))
    (h1 : hasSub line sepTrigger = false)
    (h2 : (jsTrim line).isEmpty = false)
    (h3 : hasSub line noiseDashes = false) (h4 : hasSub line noiseTitle = false)
    (h5 : hasSub line noiseVlan = false) (h6 : hasSub line noiseTotal = false)
    (h7 : 5 ≤ (wsTokens (jsTrim line)).length) :
    macRows (line :: rest) true =
      mkMacEntry (wsTokens (jsTrim line)) :: macRows rest true := by
  simp [macRows, h1, h2, h3, h4, h5, h6, h7]

theorem formatMacAddressTable_data (s : List Char) :
    (formatMacAddressTable s).data =
      macRows ((splitLines (stripBSRunStrict (cleanResponse s))).filter
        (fun l => !(jsTrim l).isEmpty)) false := rfl

/- ### Claim C8: the MAC-address-table scenario -/

/-- A well-formed fixed-layout data row: plain characters, single line, no
    trigger/noise substrings, non-blank, at least five fields. -/
@[reducible] def macRowOk (r : List Char) : Prop :=
  (∀ x ∈ r, plainOk x = true) ∧
  (∀ x ∈ r, (x == '\n') = false) ∧
  hasSub r sepTrigger = false ∧
  hasSub r noiseDashes = false ∧ hasSub r noiseTitle = false ∧
  hasSub r noiseVlan = false ∧ hasSub r noiseTotal = false ∧
  (jsTrim r).isEmpty = false ∧
  5 ≤ (wsTokens (jsTrim r)).length

/-- Claim C8: `show mac address-table` output with a title line, the literal
    separator row and three well-formed data rows yields exactly three
    structured entries, each with non-empty `vlan`, `macAddress`, `type`,
    `port` and `state` fields; a `GPON` port value absorbs the following
    token into one joined `GPON <n>` field. -/
theorem c8_mac_table_three_rows (r1 r2 r3 : List Char)
    (hr1 : macRowOk r1) (hr2 : macRowOk r2) (hr3 : macRowOk r3) :
    (formatMacAddressTable
        (noiseTitle ++ '\n' :: (sepTrigger ++ '\n' :: (r1 ++ '\n' :: (r2 ++ '\n' :: r3))))).data =
      [mkMacEntry (wsTokens (jsTrim r1)), mkMacEntry (wsTokens (jsTrim r2)),
        mkMacEntry (wsTokens (jsTrim r3))] ∧
    (∀ e ∈ (formatMacAddressTable
        (noiseTitle ++ '\n' :: (sepTrigger ++ '\n' :: (r1 ++ '\n' :: (r2 ++ '\n' :: r3))))).data,
      e.vlan ≠ [] ∧ e.macAddress ≠ [] ∧ e.type ≠ [] ∧ e.port ≠ [] ∧ e.state ≠ []) ∧
    (∀ (f0 f1 f2 f4 f5 : List Char) (rest : List (List Char)),
      (mkMacEntry (f0 :: f1 :: f2 :: "GPON".toList :: f4 :: f5 :: rest)).port =
        "GPON".toList ++ ' ' :: f4) := by
  obtain ⟨hp1, hn1, hs1, hd1, ht1, hv1, hto1, he1, hf1⟩ := hr1
  obtain ⟨hp2, hn2, hs2, hd2, ht2, hv2, hto2, he2, hf2⟩ := hr2
  obtain ⟨hp3, hn3, hs3, hd3, ht3, hv3, hto3, he3, hf3⟩ := hr3
  have hplain : ∀ x ∈ noiseTitle ++ '\n' ::
      (sepTrigger ++ '\n' :: (r1 ++ '\n' :: (r2 ++ '\n' :: r3))), plainOk x = true := by
    have hT : ∀ x ∈ noiseTitle, plainOk x = true := by decide
    have hS : ∀ x ∈ sepTrigger, plainOk x = true := by decide
    intro x hx
    simp only [List.mem_append, List.mem_cons] at hx
    rcases hx with h | h | h | h | h | h | h | h | h
    · exact hT x h
    · subst h; decide
    · exact hS x h
    · subst h; decide
    · exact hp1 x h
    · subst h; decide
    · exact hp2 x h
    · subst h; decide
    · exact hp3 x h
  have hbs : ∀ x ∈ noiseTitle ++ '\n' ::
      (sepTrigger ++ '\n' :: (r1 ++ '\n' :: (r2 ++ '\n' :: r3))), (x == '\x08') = false :=
    fun x hx => plainOk_not_bs (hplain x hx)
  have hdata : (formatMacAddressTable
      (noiseTitle ++ '\n' :: (sepTrigger ++ '\n' :: (r1 ++ '\n' :: (r2 ++ '\n' :: r3))))).data =
      [mkMacEntry (wsTokens (jsTrim r1)), mkMacEntry (wsTokens (jsTrim r2)),
        mkMacEntry (wsTokens (jsTrim r3))] := by
    rw [formatMacAddressTable_data]
    rw [cleanResponse_id _ hplain, stripBSRunStrict_id _ hbs]
    rw [splitLines_append _ _ (by decide)]
    rw [splitLines_append _ _ (by decide)]
    rw [splitLines_append _ _ hn1]
    rw [splitLines_append _ _ hn2]
    rw [splitLines_no_nl _ hn3]
    have hfT : (jsTrim noiseTitle).isEmpty = false := by decide
    have hfS : (jsTrim sepTrigger).isEmpty = false := by decide
    simp only [List.filter, hfT, hfS, he1, he2, he3, Bool.not_false]
    rw [macRows_skip_pre _ _ (by decide)]
    rw [macRows_trigger _ _ _ (by decide)]
    rw [macRows_row _ _ hs1 he1 hd1 ht1 hv1 hto1 hf1]
    rw [macRows_row _ _ hs2 he2 hd2 ht2 hv2 hto2 hf2]
    rw [macRows_row _ _ hs3 he3 hd3 ht3 hv3 hto3 hf3]
    rfl
  refine ⟨hdata, ?_, fun f0 f1 f2 f4 f5 rest => mkMacEntry_gpon f0 f1 f2 f4 f5 rest⟩
  intro e he
  rw [hdata] at he
  rcases List.mem_cons.mp he with h | he
  · subst h
    exact mkMacEntry_ne_nil _ hf1 (fun tok ht => wsTokens_ne_nil _ tok ht)
  rcases List.mem_cons.mp he with h | he
  · subst h
    exact mkMacEntry_ne_nil _ hf2 (fun tok ht => wsTokens_ne_nil _ tok ht)
  rcases List.mem_cons.mp he with h | he
  · subst h
    exact mkMacEntry_ne_nil _ hf3 (fun tok ht => wsTokens_ne_nil _ tok ht)
  · simp at he

/-- Concrete data rows for the C8 scenario. -/
def c8row1 : List Char := "1    00:11:22:33:44:55    Dynamic    GPON 1     Active".toList

def c8row2 : List Char := "2    66:77:88:99:aa:bb    Static     0/1       Active".toList

def c8row3 : List Char := "3    cc:dd:ee:ff:00:11    Dynamic    0/2       Active".toList

/-- Witness for C8: the three concrete rows are well-formed and the formatter
    yields exactly the three corresponding entries. -/
theorem c8_mac_table_three_rows_witness :
    macRowOk c8row1 ∧ macRowOk c8row2 ∧ macRowOk c8row3 ∧
    ((formatMacAddressTable
        (noiseTitle ++ '\n' :: (sepTrigger ++ '\n' ::
          (c8row1 ++ '\n' :: (c8row2 ++ '\n' :: c8row3))))).data =
      [mkMacEntry (wsTokens (jsTrim c8row1)), mkMacEntry (wsTokens (jsTrim c8row2)),
        mkMacEntry (wsTokens (jsTrim c8row3))] ∧
    (∀ e ∈ (formatMacAddressTable
        (noiseTitle ++ '\n' :: (sepTrigger ++ '\n' ::
          (c8row1 ++ '\n' :: (c8row2 ++ '\n' :: c8row3))))).data,
      e.vlan ≠ [] ∧ e.macAddress ≠ [] ∧ e.type ≠ [] ∧ e.port ≠ [] ∧ e.state ≠ []) ∧
    (∀ (f0 f1 f2 f4 f5 : List Char) (rest : List (List Char)),
      (mkMacEntry (f0 :: f1 :: f2 :: "GPON".toList :: f4 :: f5 :: rest)).port =
        "GPON".toList ++ ' ' :: f4)) :=
  ⟨by decide, by decide, by decide,
    c8_mac_table_three_rows c8row1 c8row2 c8row3 (by decide) (by decide) (by decide)⟩

/- ### Claim C2: echo and prompt stripping in extractCommandResponse -/

/-- Counterexample to claim C2 as stated: for the buffer
    `show x\nabc\n(config)#` with last command `show x`, the prompt loop
    matches `#` before `(config)#` and breaks, so only the final `#` is
    discarded: the result keeps the `(config)` text instead of being the
    bare body `abc`. -/
theorem c2_config_prompt_partial_strip :
    extractCommandResponse "show x".toList "show x\nabc\n(config)#".toList =
      "abc\n(config)".toList ∧
    extractCommandResponse "show x".toList "show x\nabc\n(config)#".toList ≠
      "abc".toList := by
  decide

/-- Amended claim C2: the echo is stripped exactly as stated (everything up
    to and including the newline after `lastCommand` is discarded), but the
    trailing prompt is stripped by the FIRST matching suffix in the fixed
    order `>`, `#`, `(config)#`, `(config-if)#`; a buffer ending in
    `(config)#` therefore matches `#` and loses only that final `#`,
    leaving `(config)` in the returned text. -/
theorem c2_extract_echo_then_first_prompt (cmd rest : List Char)
    (hnl : '\n' ∉ cmd)
    (hMore : idxSub? moreTok (rest ++ cfgPrompt) = none) :
    extractCommandResponse cmd (cmd ++ '\n' :: (rest ++ cfgPrompt)) =
      jsTrim (rest ++ "(config)".toList) := by
  unfold extractCommandResponse
  have hEcho : echoStrip cmd (cmd ++ '\n' :: (rest ++ cfgPrompt)) = rest ++ cfgPrompt := by
    have h0 : idxSub? cmd (cmd ++ '\n' :: (rest ++ cfgPrompt)) = some 0 :=
      idxSub?_of_isPrefixOf (isPrefixOf_append_self cmd _)
    have h1 : idxFrom? nlTok (cmd ++ '\n' :: (rest ++ cfgPrompt)) 0 = some cmd.length := by
      have hn : nlTok = ['\n'] := by decide
      unfold idxFrom?
      rw [List.drop_zero, hn, idxSub?_singleton_append _ hnl]
      simp
    simp only [echoStrip, h0, h1]
    have hc : cmd ++ '\n' :: (rest ++ cfgPrompt) = (cmd ++ ['\n']) ++ (rest ++ cfgPrompt) := by
      simp
    rw [hc]
    have hl : cmd.length + 1 = (cmd ++ ['\n']).length := by simp
    rw [hl, List.drop_left]
  rw [hEcho, removeMore_none hMore]
  have hsplit : rest ++ cfgPrompt = (rest ++ "(config)".toList) ++ ['#'] := by
    rw [cfgPrompt_concat, List.append_assoc]
  rw [hsplit, promptStrip_concat_hash]

/-- Witness for the amended C2 at the buffer `show x\nabc\n(config)#`. -/
theorem c2_extract_echo_then_first_prompt_witness :
    ('\n' ∉ "show x".toList) ∧
    idxSub? moreTok ("abc\n".toList ++ cfgPrompt) = none ∧
    extractCommandResponse "show x".toList
        ("show x".toList ++ '\n' :: ("abc\n".toList ++ cfgPrompt)) =
      jsTrim ("abc\n".toList ++ "(config)".toList) :=
  ⟨by decide, by decide,
    c2_extract_echo_then_first_prompt "show x".toList "abc\n".toList
      (by decide) (by decide)⟩
